import Mathlib

/-! Verification development for the `til` Bridge translator.

A shallow embedding of the component translators (`internal/components/...`),
the safe decoder (`lang/decode.go`) and the CLI commands (`commands.go`),
followed by theorems about them.

Conventions of the embedding:

* a Go function that may panic returns `Option`, `none` standing for the panic;
* Go maps (`map[string]interface{}`, cty object values) are association lists
  in which a key occurs at most once; setting a key replaces its entry in place
  or appends a new entry;
* functions of external libraries (go-cty, hcl, apimachinery `unstructured`) are
  modelled after the library's behaviour; helpers of this repository whose
  source is not available are either modelled from the specification (and
  marked so) or taken as the fields of the parameter record `Sdk`.
-/

set_option autoImplicit false

/-! ## go-cty: types and values -/

/-- The cty types used by the component schemas. The attributes of an object
type are kept in a fixed (alphabetical) order. -/
inductive Ty where
  | string
  | bool
  | number
  | dynamic
  | list (elem : Ty)
  | object (attrs : List (String × Ty))

mutual
/-- Structural equality of types (`Type.Equals`). -/
def Ty.Equals : Ty → Ty → Bool
  | .string, .string => true
  | .bool, .bool => true
  | .number, .number => true
  | .dynamic, .dynamic => true
  | .list a, .list b => Ty.Equals a b
  | .object as, .object bs => Ty.EqualsAttrs as bs
  | _, _ => false
/-- Attribute-wise equality of two object types. -/
def Ty.EqualsAttrs : List (String × Ty) → List (String × Ty) → Bool
  | [], [] => true
  | (n, a) :: as, (m, b) :: bs => n == m && Ty.Equals a b && Ty.EqualsAttrs as bs
  | _, _ => false
end

/-- The type of a named attribute of an object type (`Type.AttributeType`),
`none` when the type has no such attribute. -/
def Ty.AttributeType : List (String × Ty) → String → Option Ty
  | [], _ => none
  | (n, t) :: rest, name => if n = name then some t else Ty.AttributeType rest name

/-- A cty value: a typed null, a typed unknown, or a known value. -/
inductive Value where
  | null (ty : Ty)
  | unknown (ty : Ty)
  | str (s : String)
  | bool (b : Bool)
  | number (n : Int)
  | list (elem : Ty) (vs : List Value)
  | object (attrs : List (String × Value))

namespace Value

mutual
/-- The type of a value (`Value.Type`). -/
def typeOf : Value → Ty
  | .null t => t
  | .unknown t => t
  | .str _ => .string
  | .bool _ => .bool
  | .number _ => .number
  | .list e _ => .list e
  | .object as => .object (attrTypes as)
/-- The attribute types of the attributes of an object value. -/
def attrTypes : List (String × Value) → List (String × Ty)
  | [] => []
  | (n, v) :: rest => (n, typeOf v) :: attrTypes rest
end

/-- Whether the value is null (`Value.IsNull`); an unknown value is not null. -/
def IsNull : Value → Bool
  | .null _ => true
  | _ => false

/-- Whether the value is known (`Value.IsKnown`); a null value is known. -/
def IsKnown : Value → Bool
  | .unknown _ => false
  | _ => true

/-- Lookup in the attribute map of a known object value. -/
def lookupAttr : List (String × Value) → String → Option Value
  | [], _ => none
  | (n, v) :: rest, name => if n = name then some v else lookupAttr rest name

/-- The attribute of an object value (`Value.GetAttr`). A value of the dynamic
pseudo-type yields the unknown dynamic value, an unknown object an unknown of
the attribute's type. It panics on a value that is not of an object type, on a
missing attribute and on a null object. -/
def GetAttr (val : Value) (name : String) : Option Value :=
  match val with
  | .null .dynamic => some (.unknown .dynamic)
  | .unknown .dynamic => some (.unknown .dynamic)
  | .unknown (.object attrs) => (Ty.AttributeType attrs name).map Value.unknown
  | .object attrs => lookupAttr attrs name
  | _ => none

/-- The Go string of a known, non-null string value (`Value.AsString`); panics
on anything else. -/
def AsString : Value → Option String
  | .str s => some s
  | _ => none

/-- The Go bool of a bool value (`Value.True`): a null bool is not true; it
panics on an unknown value and on a value that is not of type bool. -/
def True : Value → Option Bool
  | .bool b => some b
  | .null .bool => some false
  | _ => none

/-- The elements of a known, non-null list value, in order
(`Value.ElementIterator`, `Value.AsValueSlice`); panics on anything else. -/
def Elements : Value → Option (List Value)
  | .list _ vs => some vs
  | _ => none

mutual
/-- A value is concrete when it is known and not null, and so is everything
inside it. -/
def isConcrete : Value → Bool
  | .null _ => false
  | .unknown _ => false
  | .str _ => true
  | .bool _ => true
  | .number _ => true
  | .list _ vs => allConcrete vs
  | .object as => attrsConcrete as
/-- All the elements of a list are concrete. -/
def allConcrete : List Value → Bool
  | [] => true
  | v :: rest => isConcrete v && allConcrete rest
/-- All the attributes of an object are concrete. -/
def attrsConcrete : List (String × Value) → Bool
  | [] => true
  | (_, v) :: rest => isConcrete v && attrsConcrete rest
end

end Value

/-! ## apimachinery: unstructured content -/

/-- The JSON-like content of an unstructured object (Go `interface{}` values
holding strings, booleans, slices and string-keyed maps). -/
inductive Any where
  | str (s : String)
  | bool (b : Bool)
  | slice (items : List Any)
  | map (entries : List (String × Any))

/-- The content of an unstructured object: `map[string]interface{}`. -/
abbrev Obj := List (String × Any)

/-- The value stored under a key of a map (`m[key]`). -/
def Obj.get : Obj → String → Option Any
  | [], _ => none
  | (k, v) :: rest, key => if k = key then some v else Obj.get rest key

/-- The map after `m[key] = value`. -/
def Obj.put : Obj → String → Any → Obj
  | [], key, value => [(key, value)]
  | (k, v) :: rest, key, value =>
    if k = key then (k, value) :: rest else (k, v) :: Obj.put rest key value

/-- The map after `delete(m, key)`. -/
def Obj.delete : Obj → String → Obj
  | [], _ => []
  | (k, v) :: rest, key => if k = key then rest else (k, v) :: Obj.delete rest key

namespace unstructured

/-- The value at a path of nested maps (`unstructured.NestedFieldNoCopy`);
`none` when the path does not lead to a value. -/
def NestedField (obj : Obj) : List String → Option Any
  | [] => some (.map obj)
  | [f] => obj.get f
  | f :: rest =>
    match obj.get f with
    | some (.map m) => NestedField m rest
    | _ => none

/-- The object after `unstructured.SetNestedField(obj, value, fields...)`:
missing intermediate maps are created; `none` is the error returned when an
intermediate value exists and is not a map, in which case the object is left
as it was. The Go function panics on an empty path. -/
def SetNestedField (obj : Obj) (value : Any) : List String → Option Obj
  | [] => none
  | [f] => some (obj.put f value)
  | f :: rest =>
    match obj.get f with
    | some (.map m) => (SetNestedField m value rest).map (fun m1 => obj.put f (.map m1))
    | some _ => none
    | none => (SetNestedField [] value rest).map (fun m1 => obj.put f (.map m1))

/-- A call `_ = unstructured.SetNestedField(...)` whose error is ignored. -/
def setNested (obj : Obj) (value : Any) (fields : List String) : Obj :=
  (SetNestedField obj value fields).getD obj

/-- The object after `unstructured.RemoveNestedField(obj, fields...)`. -/
def RemoveNestedField (obj : Obj) : List String → Obj
  | [] => obj
  | [f] => obj.delete f
  | f :: rest =>
    match obj.get f with
    | some (.map m) => obj.put f (.map (RemoveNestedField m rest))
    | _ => obj

/-- The object after `u.SetAPIVersion(version)`. -/
def SetAPIVersion (obj : Obj) (version : String) : Obj :=
  setNested obj (.str version) ["apiVersion"]

/-- The object after `u.SetKind(kind)`. -/
def SetKind (obj : Obj) (kind : String) : Obj :=
  setNested obj (.str kind) ["kind"]

/-- The object after `u.SetName(name)`: an empty name removes the field. -/
def SetName (obj : Obj) (name : String) : Obj :=
  if name.length = 0 then RemoveNestedField obj ["metadata", "name"]
  else setNested obj (.str name) ["metadata", "name"]

/-- The string at a path, the empty string when there is none or it is not a
string (`unstructured.NestedString` as used by the getters). -/
def getNestedString (obj : Obj) (fields : List String) : String :=
  match NestedField obj fields with
  | some (.str s) => s
  | _ => ""

/-- The name of an object (`u.GetName()`). -/
def GetName (obj : Obj) : String := getNestedString obj ["metadata", "name"]

/-- The kind of an object (`u.GetKind()`). -/
def GetKind (obj : Obj) : String := getNestedString obj ["kind"]

/-- The API version of an object (`u.GetAPIVersion()`). -/
def GetAPIVersion (obj : Obj) : String := getNestedString obj ["apiVersion"]

end unstructured

/-! ## hcl: diagnostics -/

namespace hcl

/-- The severity of a diagnostic (`hcl.DiagnosticSeverity`). -/
inductive DiagnosticSeverity where
  | DiagInvalid
  | DiagError
  | DiagWarning
  deriving DecidableEq, Repr

/-- A position in a source file (`hcl.Pos`). -/
structure Pos where
  Line : Int
  Column : Int
  Byte : Int
  deriving DecidableEq, Repr

/-- A range of a source file (`hcl.Range`). -/
structure Range where
  Filename : String
  Start : Pos
  End : Pos
  deriving DecidableEq, Repr

/-- A diagnostic (`hcl.Diagnostic`), with the fields this program sets. -/
structure Diagnostic where
  Severity : DiagnosticSeverity
  Summary : String
  Detail : String
  Subject : Option Range
  deriving DecidableEq, Repr

/-- An ordered list of diagnostics (`hcl.Diagnostics`); `Append` and `Extend`
are list concatenation. -/
abbrev Diagnostics := List Diagnostic

/-- Whether any diagnostic is an error (`Diagnostics.HasErrors`). -/
def Diagnostics.HasErrors (diags : Diagnostics) : Bool :=
  diags.any (fun d => d.Severity == DiagnosticSeverity.DiagError)

/-- The diagnostics followed by one more (`Diagnostics.Append`). -/
def Diagnostics.Append (diags : Diagnostics) (d : Diagnostic) : Diagnostics :=
  diags ++ [d]

/-- The diagnostics followed by others (`Diagnostics.Extend`). -/
def Diagnostics.Extend (diags more : Diagnostics) : Diagnostics :=
  diags ++ more

/-- An absolute traversal (`hcl.Traversal`): a root name followed by attribute
steps, as in `target.foo`. Relative traversals and index steps, which neither
`hcldec.Variables` nor a `to` attribute of a Bridge yields, are left out. -/
structure Traversal where
  /-- The name of the `TraverseRoot` step. -/
  Name : String
  /-- The source range of the `TraverseRoot` step. -/
  SrcRange : Range
  /-- The names of the `TraverseAttr` steps that follow the root. -/
  Attrs : List String

/-- The name of the root of an absolute traversal (`Traversal.RootName`). -/
def Traversal.RootName (t : Traversal) : String := t.Name

/-- An evaluation context (`*hcl.EvalContext`) as the chain of the `Variables`
maps from the given context up to its outermost parent; a nil `Variables` map
is `none` and the nil context is the empty chain. -/
abbrev EvalContext := List (Option (List (String × Value)))

end hcl

/-! ## hcldec: decoding specifications -/

namespace hcldec

/-- The decoding specifications (`hcldec.Spec`) used by the attribute-based
component schemas. -/
inductive Spec where
  | AttrSpec (Name : String) (Type_ : Ty) (Required : Bool)
  | ValidateSpec (Wrapped : Spec) (Func : Value → hcl.Diagnostics)
  | ObjectSpec (attrs : List (String × Spec))

end hcldec

/-! ## The repository's Kubernetes helpers (`internal/sdk/k8s`) -/

namespace k8s

/-- The cty type of an object reference: `{apiVersion, kind, name}`. -/
def ObjectReferenceCty : Ty :=
  .object [("apiVersion", .string), ("kind", .string), ("name", .string)]

/-- The cty type of an event destination: `{ref = ObjectReferenceCty}`. -/
def DestinationCty : Ty :=
  .object [("ref", ObjectReferenceCty)]

/-- Modelled from the spec: `k8s.NewDestination` is not part of the available
sources. An event destination is "a structured value with field
`ref = {apiVersion, kind, name}`". -/
def NewDestination (apiVersion kind name : String) : Value :=
  .object [("ref", .object [("apiVersion", .str apiVersion), ("kind", .str kind),
    ("name", .str name)])]

/-- Modelled from the spec: `k8s.NewObject` is not part of the available
sources. A manifest is "an untyped structured map in the shape expected by a
container orchestrator (apiVersion, kind, metadata.name, spec.*)"; the new
object carries the three given attributes, the name exactly as it is passed,
set the way `sources/kafka.go` and `transformers/bumblebee.go` spell it out. -/
def NewObject (apiVersion kind name : String) : Obj :=
  unstructured.SetName (unstructured.SetKind (unstructured.SetAPIVersion [] apiVersion) kind) name

/-- Modelled from the spec: the methods `SetNestedField`, `SetNestedMap` and
`SetNestedSlice` of `k8s.Object` are not part of the available sources. They
set a value below `spec.*` of the manifest and return nothing, like the
`_ = unstructured.SetNested...` calls of `sources/kafka.go`. -/
def Object.SetNestedField (o : Obj) (value : Any) (fields : List String) : Obj :=
  unstructured.setNested o value fields

/-- Modelled from the spec: `k8s.IsObjectReference` is not part of the
available sources. "tls must be either an object reference or a boolean": a
value is an object reference when its type is the object-reference type. -/
def IsObjectReference (v : Value) : Bool :=
  v.typeOf.Equals ObjectReferenceCty

end k8s

/-- The helpers of the repository that the translators call and whose source
is not available (`internal/sdk/k8s`, `internal/sdk/secrets`, `internal/sdk`,
`config/globals`), taken as parameters with their Go signatures. A theorem
that takes this record holds for every value of it. -/
structure Sdk where
  /-- The normalisation of an identifier to an RFC 1123 name. -/
  RFC1123Name : String → String
  /-- The API group and version of the target objects. -/
  APITargets : String
  /-- The API group and version of channels and subscriptions. -/
  APIMessaging : String
  /-- The API group and version of the `KafkaSink` object. -/
  APIEventingV1Alpha1 : String
  /-- The references to the access key and to the secret key of a secret. -/
  SecretKeyRefsAWS : String → Obj × Obj
  /-- The reference to the API key of a secret. -/
  SecretKeyRefsDatadog : String → Obj
  /-- The references to the SASL mechanism, user and password and to the CA
  certificate, certificate and key of a secret. -/
  SecretKeyRefsKafka : String → Obj × Obj × Obj × Obj × Obj × Obj
  /-- The references to the tenant ID, client ID and client secret of a secret. -/
  SecretKeyRefsAzureSP : String → Obj × Obj × Obj
  /-- The Go slice of the strings of a list value. -/
  DecodeStringSlice : Value → List Any
  /-- The `ref` map of a destination value. -/
  DecodeDestination : Value → Obj
  /-- The type `globals.Accessor`. -/
  Accessor : Type
  /-- The type `k8s.SubscriptionOption`. -/
  SubscriptionOption : Type
  /-- The option that sets the reply destination of a subscription. -/
  ReplyDest : Value → SubscriptionOption
  /-- The given options followed by those of the global delivery settings. -/
  AppendDeliverySubscriptionOptions : List SubscriptionOption → Accessor → List SubscriptionOption
  /-- The subscription `name` of a subscriber to a channel, with options
  (the signature used by the targets). -/
  NewSubscription : String → String → Value → List SubscriptionOption → Obj
  /-- The subscription `name` of a subscriber to a channel, with a reply
  destination (the signature used by `transformers/function.go`). -/
  NewSubscriptionReply : String → String → Value → Value → Obj

namespace k8s

/-- Modelled from the spec: `k8s.NewChannel` is not part of the available
sources. The channel is the object that the non-terminal address names, "a
wrapping channel named after the component": an object of the messaging API
of kind `Channel` with the given name. -/
def NewChannel (sdk : Sdk) (name : String) : Obj :=
  NewObject sdk.APIMessaging "Channel" name

end k8s

/-! ## The target translators (`internal/components/targets`) -/

namespace targets

/-- `AWSSNS.Manifests` of `targets/aws_sns.go`. -/
def AWSSNS.Manifests (sdk : Sdk) (id : String) (config eventDst : Value)
    (glb : sdk.Accessor) : Option (List Obj) := do
  let manifests : List Obj := []
  let name := sdk.RFC1123Name id
  let t := k8s.NewObject sdk.APITargets "AWSSNSTarget" (sdk.RFC1123Name id)
  let arn ← (← config.GetAttr "arn").AsString
  let t := k8s.Object.SetNestedField t (.str arn) ["spec", "arn"]
  let credsSecretName ← (← (← config.GetAttr "credentials").GetAttr "name").AsString
  let (accKeySecretRef, secrKeySecretRef) := sdk.SecretKeyRefsAWS credsSecretName
  let t := k8s.Object.SetNestedField t (.map accKeySecretRef) ["spec", "awsApiKey", "secretKeyRef"]
  let t := k8s.Object.SetNestedField t (.map secrKeySecretRef)
    ["spec", "awsApiSecret", "secretKeyRef"]
  let manifests := manifests ++ [t]
  if !eventDst.IsNull then
    let ch := k8s.NewChannel sdk name
    let subscriber := k8s.NewDestination sdk.APITargets "AWSSNSTarget" name
    let sbOpts := [sdk.ReplyDest eventDst]
    let sbOpts := sdk.AppendDeliverySubscriptionOptions sbOpts glb
    let subs := sdk.NewSubscription name name subscriber sbOpts
    pure (manifests ++ [ch, subs])
  else
    pure manifests

/-- `AWSSNS.Address` of `targets/aws_sns.go`. -/
def AWSSNS.Address (sdk : Sdk) (id : String) (_config eventDst : Value) : Value :=
  let name := sdk.RFC1123Name id
  if eventDst.IsNull then k8s.NewDestination sdk.APITargets "AWSSNSTarget" name
  else k8s.NewDestination sdk.APIMessaging "Channel" name

/-- `Datadog.Manifests` of `targets/datadog.go`. -/
def Datadog.Manifests (sdk : Sdk) (id : String) (config eventDst : Value)
    (glb : sdk.Accessor) : Option (List Obj) := do
  let manifests : List Obj := []
  let name := sdk.RFC1123Name id
  let t := k8s.NewObject sdk.APITargets "DatadogTarget" name
  let v ← config.GetAttr "metric_prefix"
  let t ← if !v.IsNull then do
      let mp ← (← config.GetAttr "metric_prefix").AsString
      pure (k8s.Object.SetNestedField t (.str mp) ["spec", "metricPrefix"])
    else pure t
  let authSecretName ← (← (← config.GetAttr "auth").GetAttr "name").AsString
  let apiKeySecretRef := sdk.SecretKeyRefsDatadog authSecretName
  let t := k8s.Object.SetNestedField t (.map apiKeySecretRef) ["spec", "apiKey", "secretKeyRef"]
  let manifests := manifests ++ [t]
  if !eventDst.IsNull then
    let ch := k8s.NewChannel sdk name
    let subscriber := k8s.NewDestination sdk.APITargets "DatadogTarget" name
    let sbOpts := [sdk.ReplyDest eventDst]
    let sbOpts := sdk.AppendDeliverySubscriptionOptions sbOpts glb
    let subs := sdk.NewSubscription name name subscriber sbOpts
    pure (manifests ++ [ch, subs])
  else
    pure manifests

/-- `Datadog.Address` of `targets/datadog.go`. -/
def Datadog.Address (sdk : Sdk) (id : String) (_config eventDst : Value) : Value :=
  let name := sdk.RFC1123Name id
  if eventDst.IsNull then k8s.NewDestination sdk.APITargets "DatadogTarget" name
  else k8s.NewDestination sdk.APIMessaging "Channel" name

/-- `Kafka.Manifests` of `targets/kafka.go`. -/
def Kafka.Manifests (sdk : Sdk) (id : String) (config eventDst : Value)
    (glb : sdk.Accessor) : Option (List Obj) := do
  let manifests : List Obj := []
  let name := sdk.RFC1123Name id
  let s := k8s.NewObject sdk.APIEventingV1Alpha1 "KafkaSink" name
  let topic ← (← config.GetAttr "topic").AsString
  let s := k8s.Object.SetNestedField s (.str topic) ["spec", "topic"]
  let bootstrapServers := sdk.DecodeStringSlice (← config.GetAttr "bootstrap_servers")
  let s := k8s.Object.SetNestedField s (.slice bootstrapServers) ["spec", "bootstrapServers"]
  let authSecretName ← (← (← config.GetAttr "auth").GetAttr "name").AsString
  let s := k8s.Object.SetNestedField s (.str authSecretName)
    ["spec", "auth", "secret", "ref", "name"]
  let manifests := manifests ++ [s]
  if !eventDst.IsNull then
    let ch := k8s.NewChannel sdk name
    let subscriber := k8s.NewDestination sdk.APIEventingV1Alpha1 "KafkaSink" name
    let sbOpts := [sdk.ReplyDest eventDst]
    let sbOpts := sdk.AppendDeliverySubscriptionOptions sbOpts glb
    let subs := sdk.NewSubscription name name subscriber sbOpts
    pure (manifests ++ [ch, subs])
  else
    pure manifests

/-- `Kafka.Address` of `targets/kafka.go`. -/
def Kafka.Address (sdk : Sdk) (id : String) (_config eventDst : Value) : Value :=
  let name := sdk.RFC1123Name id
  if eventDst.IsNull then k8s.NewDestination sdk.APIEventingV1Alpha1 "KafkaSink" name
  else k8s.NewDestination sdk.APIMessaging "Channel" name

end targets

/-! ## The transformer translators (`internal/components/transformers`) -/

namespace transformers

/-- `Function.Address` of `transformers/function.go`. -/
def Function.Address (sdk : Sdk) (id : String) (config _eventDst : Value) : Option Value := do
  let name := sdk.RFC1123Name id
  if (← (← config.GetAttr "runtime").AsString) = "js" then
    pure (k8s.NewDestination sdk.APIMessaging "Channel" name)
  else
    pure (k8s.NewDestination "flow.triggermesh.io/v1alpha1" "Function" name)

/-- `Bumblebee.Address` of `transformers/bumblebee.go`. -/
def Bumblebee.Address (sdk : Sdk) (id : String) (_config _eventDst : Value) : Value :=
  k8s.NewDestination "flow.triggermesh.io/v1alpha1" "Transformation" (sdk.RFC1123Name id)

end transformers

/-! ## The source translators (`internal/components/sources`) -/

namespace sources

/-- The strings of the elements of a list value, collected the way the loops
over `ElementIterator` of `Kafka.Manifests` do. -/
def stringElements : List Value → Option (List Any)
  | [] => some []
  | v :: rest => do
    let s ← v.AsString
    let more ← stringElements rest
    pure (Any.str s :: more)

/-- The `sink` map built from an event destination by the source translators. -/
def sinkOf (eventDst : Value) : Option Obj := do
  let sinkRef ← eventDst.GetAttr "ref"
  let apiVersion ← (← sinkRef.GetAttr "apiVersion").AsString
  let kind ← (← sinkRef.GetAttr "kind").AsString
  let name ← (← sinkRef.GetAttr "name").AsString
  pure [("apiVersion", Any.str apiVersion), ("kind", Any.str kind), ("name", Any.str name)]

/-- The block `if v := config.GetAttr("consumer_group"); !v.IsNull()` of
`Kafka.Manifests`. -/
def Kafka.setConsumerGroup (s : Obj) (config : Value) : Option Obj := do
  let v ← config.GetAttr "consumer_group"
  if !v.IsNull then do
    let consumerGroup ← v.AsString
    pure (unstructured.setNested s (.str consumerGroup) ["spec", "consumerGroup"])
  else pure s

/-- The loop over the elements of the list attribute `attr` of
`Kafka.Manifests` and the call of `SetNestedSlice` that follows it. -/
def Kafka.setStrings (s : Obj) (config : Value) (attr field : String) : Option Obj := do
  let strings ← stringElements (← (← config.GetAttr attr).Elements)
  pure (unstructured.setNested s (.slice strings) ["spec", field])

/-- The block `if v := config.GetAttr("sasl_auth"); !v.IsNull()` of
`Kafka.Manifests`. -/
def Kafka.setSASL (sdk : Sdk) (s : Obj) (config : Value) : Option Obj := do
  let v ← config.GetAttr "sasl_auth"
  if !v.IsNull then do
    let saslAuthSecretName ← (← v.GetAttr "name").AsString
    let (saslMech, saslUser, saslPasswd, _, _, _) := sdk.SecretKeyRefsKafka saslAuthSecretName
    let s := unstructured.setNested s (.bool true) ["spec", "net", "sasl", "enable"]
    let s := unstructured.setNested s (.map saslMech) ["spec", "net", "sasl", "type", "secretKeyRef"]
    let s := unstructured.setNested s (.map saslUser) ["spec", "net", "sasl", "user", "secretKeyRef"]
    pure (unstructured.setNested s (.map saslPasswd)
      ["spec", "net", "sasl", "password", "secretKeyRef"])
  else pure s

/-- The block `if v := config.GetAttr("tls"); !v.IsNull()` of
`Kafka.Manifests`. -/
def Kafka.setTLS (sdk : Sdk) (s : Obj) (config : Value) : Option Obj := do
  let v ← config.GetAttr "tls"
  if !v.IsNull then
    if k8s.IsObjectReference v then do
      let tlsSecretName ← (← v.GetAttr "name").AsString
      let (_, _, _, caCert, cert, key) := sdk.SecretKeyRefsKafka tlsSecretName
      let s := unstructured.setNested s (.bool true) ["spec", "net", "tls", "enable"]
      let s := unstructured.setNested s (.map caCert) ["spec", "net", "tls", "caCert", "secretKeyRef"]
      let s := unstructured.setNested s (.map cert) ["spec", "net", "tls", "cert", "secretKeyRef"]
      let s := unstructured.setNested s (.map key) ["spec", "net", "tls", "key", "secretKeyRef"]
      let s := unstructured.setNested s (.bool true)
        ["spec", "net", "tls", "caCert", "secretKeyRef", "optional"]
      let s := unstructured.setNested s (.bool true)
        ["spec", "net", "tls", "cert", "secretKeyRef", "optional"]
      pure (unstructured.setNested s (.bool true)
        ["spec", "net", "tls", "key", "secretKeyRef", "optional"])
    else do
      if (← v.True) then
        pure (unstructured.setNested s (.bool true) ["spec", "net", "tls", "enable"])
      else pure s
  else pure s

/-- `Kafka.Manifests` of `sources/kafka.go`, its blocks being the definitions
above, in the order of the source. -/
def Kafka.Manifests (sdk : Sdk) (id : String) (config eventDst : Value) : Option (List Obj) := do
  let manifests : List Obj := []
  let s : Obj := []
  let s := unstructured.SetAPIVersion s "sources.knative.dev/v1beta1"
  let s := unstructured.SetKind s "KafkaSource"
  let s := unstructured.SetName s (sdk.RFC1123Name id)
  let s ← Kafka.setConsumerGroup s config
  let s ← Kafka.setStrings s config "bootstrap_servers" "bootstrapServers"
  let s ← Kafka.setStrings s config "topics" "topics"
  let s ← Kafka.setSASL sdk s config
  let s ← Kafka.setTLS sdk s config
  let sink ← sinkOf eventDst
  let s := unstructured.setNested s (.map sink) ["spec", "sink", "ref"]
  pure (manifests ++ [s])

/-- `validateKafkaAttrTLS` of `sources/kafka.go`. -/
def validateKafkaAttrTLS (val : Value) : hcl.Diagnostics :=
  let diags : hcl.Diagnostics := []
  if !(k8s.IsObjectReference val || val.typeOf.Equals Ty.bool) then
    diags.Append {
      Severity := hcl.DiagnosticSeverity.DiagError
      Summary := "Invalid attributes type"
      Detail := "The \"tls\" attribute accepts either a secret reference or a boolean."
      Subject := none }
  else diags

/-- `AzureActivityLogs.Manifests` of `sources/azure_activity_logs.go`. -/
def AzureActivityLogs.Manifests (sdk : Sdk) (id : String) (config eventDst : Value) :
    Option (List Obj) := do
  let manifests : List Obj := []
  let s := k8s.NewObject "sources.triggermesh.io/v1alpha1" "AzureActivityLogsSource" id
  let eventHubID ← (← config.GetAttr "event_hub_id").AsString
  let s := k8s.Object.SetNestedField s (.str eventHubID) ["spec", "eventHubID"]
  let v ← config.GetAttr "event_hubs_sas_policy"
  let s ← if !v.IsNull then do
      let eventHubsSASPolicy ← v.AsString
      pure (k8s.Object.SetNestedField s (.str eventHubsSASPolicy) ["spec", "eventHubsSASPolicy"])
    else pure s
  let v ← config.GetAttr "categories"
  let s := if !v.IsNull then
      let categories := sdk.DecodeStringSlice v
      k8s.Object.SetNestedField s (.slice categories) ["spec", "categories"]
    else s
  let authSecretName ← (← (← config.GetAttr "auth").GetAttr "name").AsString
  let (tenantIDSecretRef, clientIDSecretRef, clientSecrSecretRef) :=
    sdk.SecretKeyRefsAzureSP authSecretName
  let s := k8s.Object.SetNestedField s (.map tenantIDSecretRef)
    ["spec", "auth", "servicePrincipal", "tenantID", "valueFromSecret"]
  let s := k8s.Object.SetNestedField s (.map clientIDSecretRef)
    ["spec", "auth", "servicePrincipal", "clientID", "valueFromSecret"]
  let s := k8s.Object.SetNestedField s (.map clientSecrSecretRef)
    ["spec", "auth", "servicePrincipal", "clientSecret", "valueFromSecret"]
  let sink ← sinkOf eventDst
  let s := k8s.Object.SetNestedField s (.map sink) ["spec", "sink", "ref"]
  pure (manifests ++ [s])

end sources

/-! ## Component schemas and valid configurations -/

namespace Value

mutual
/-- Whether a value is of a type, elements and attributes included. Every
value conforms to the dynamic pseudo-type. -/
def hasType : Ty → Value → Bool
  | .dynamic, _ => true
  | ty, .null t => t.Equals ty
  | ty, .unknown t => t.Equals ty
  | .string, .str _ => true
  | .bool, .bool _ => true
  | .number, .number _ => true
  | .list e, .list e1 vs => e1.Equals e && hasTypeAll e vs
  | .object tys, .object attrs => hasTypeAttrs tys attrs
  | _, _ => false
/-- All the elements of a list are of a type. -/
def hasTypeAll : Ty → List Value → Bool
  | _, [] => true
  | e, v :: rest => hasType e v && hasTypeAll e rest
/-- The attributes of an object are those of an object type, one by one. -/
def hasTypeAttrs : List (String × Ty) → List (String × Value) → Bool
  | [], [] => true
  | (n, t) :: tys, (m, v) :: attrs => n == m && hasType t v && hasTypeAttrs tys attrs
  | _, _ => false
end

end Value

namespace hcldec

mutual
/-- A configuration value is valid for a specification when it is what an
error-free, complete decoding yields: an attribute is a concrete value of the
attribute's type, or null when the attribute is not required; an object has
every attribute of the specification. A validated attribute that is set must
pass its validator; one that is left out (null) counts as conforming whatever
the validator says about null, so that the theorems below also cover the
configurations that omit it. -/
def conforms : Spec → Value → Bool
  | .AttrSpec _ ty required, v => v.hasType ty && (v.isConcrete || (!required && v.IsNull))
  | .ValidateSpec wrapped f, v => conforms wrapped v && (v.IsNull || !(f v).HasErrors)
  | .ObjectSpec attrs, v =>
    match v with
    | .object fields => conformsAttrs attrs fields
    | _ => false
/-- Every attribute of an object specification is present and conforms. -/
def conformsAttrs : List (String × Spec) → List (String × Value) → Bool
  | [], _ => true
  | (n, sp) :: rest, fields =>
    (match Value.lookupAttr fields n with
      | some a => conforms sp a
      | none => false) && conformsAttrs rest fields
end

end hcldec

/-- `AWSSNS.Spec` of `targets/aws_sns.go`. -/
def targets.AWSSNS.Spec : hcldec.Spec :=
  .ObjectSpec [
    ("arn", .AttrSpec "arn" .string true),
    ("credentials", .AttrSpec "credentials" k8s.ObjectReferenceCty true)]

/-- `Datadog.Spec` of `targets/datadog.go`. -/
def targets.Datadog.Spec : hcldec.Spec :=
  .ObjectSpec [
    ("metric_prefix", .AttrSpec "metric_prefix" .string false),
    ("auth", .AttrSpec "auth" k8s.ObjectReferenceCty true)]

/-- `Kafka.Spec` of `targets/kafka.go`. -/
def targets.Kafka.Spec : hcldec.Spec :=
  .ObjectSpec [
    ("topic", .AttrSpec "topic" .string true),
    ("bootstrap_servers", .AttrSpec "bootstrap_servers" (.list .string) true),
    ("auth", .AttrSpec "auth" k8s.ObjectReferenceCty true)]

/-- `Kafka.Spec` of `sources/kafka.go`. -/
def sources.Kafka.Spec : hcldec.Spec :=
  .ObjectSpec [
    ("consumer_group", .AttrSpec "consumer_group" .string false),
    ("bootstrap_servers", .AttrSpec "bootstrap_servers" (.list .string) true),
    ("topics", .AttrSpec "topics" (.list .string) true),
    ("sasl_auth", .AttrSpec "sasl_auth" k8s.ObjectReferenceCty false),
    ("tls", .ValidateSpec (.AttrSpec "tls" .dynamic false) sources.validateKafkaAttrTLS)]

/-- `AzureActivityLogs.Spec` of `sources/azure_activity_logs.go`. -/
def sources.AzureActivityLogs.Spec : hcldec.Spec :=
  .ObjectSpec [
    ("event_hub_id", .AttrSpec "event_hub_id" .string true),
    ("event_hubs_sas_policy", .AttrSpec "event_hubs_sas_policy" .string false),
    ("categories", .AttrSpec "categories" (.list .string) false),
    ("auth", .AttrSpec "auth" k8s.ObjectReferenceCty true)]

/-- `Function.Spec` of `transformers/function.go`. -/
def transformers.Function.Spec : hcldec.Spec :=
  .ObjectSpec [
    ("runtime", .AttrSpec "runtime" .string true),
    ("code", .AttrSpec "code" .string true),
    ("entrypoint", .AttrSpec "entrypoint" .string false),
    ("public", .AttrSpec "public" .bool false)]

/-! ## The three targets -/

namespace targets

/-- The target implementations of the repository. -/
inductive Target where
  | AWSSNS
  | Datadog
  | Kafka
  deriving DecidableEq, Repr

/-- The schema of a target (its method `Spec`). -/
def Target.Spec : Target → hcldec.Spec
  | .AWSSNS => AWSSNS.Spec
  | .Datadog => Datadog.Spec
  | .Kafka => Kafka.Spec

/-- The manifests of a target (its method `Manifests`). -/
def Target.Manifests (sdk : Sdk) :
    Target → String → Value → Value → sdk.Accessor → Option (List Obj)
  | .AWSSNS => AWSSNS.Manifests sdk
  | .Datadog => Datadog.Manifests sdk
  | .Kafka => Kafka.Manifests sdk

/-- The API version that a target gives to its primary object. -/
def Target.APIVersion (sdk : Sdk) : Target → String
  | .AWSSNS => sdk.APITargets
  | .Datadog => sdk.APITargets
  | .Kafka => sdk.APIEventingV1Alpha1

/-- The kind that a target gives to its primary object. -/
def Target.Kind : Target → String
  | .AWSSNS => "AWSSNSTarget"
  | .Datadog => "DatadogTarget"
  | .Kafka => "KafkaSink"

end targets

/-! ## The addressable components -/

/-- The component implementations of the repository that implement
`translation.Addressable`. -/
inductive Addressable where
  | AWSSNS
  | Datadog
  | KafkaTarget
  | Bumblebee
  | Function
  deriving DecidableEq, Repr

/-- The method `Address` of an addressable component; `none` is a panic. -/
def Addressable.Address (sdk : Sdk) : Addressable → String → Value → Value → Option Value
  | .AWSSNS, id, config, eventDst => some (targets.AWSSNS.Address sdk id config eventDst)
  | .Datadog, id, config, eventDst => some (targets.Datadog.Address sdk id config eventDst)
  | .KafkaTarget, id, config, eventDst => some (targets.Kafka.Address sdk id config eventDst)
  | .Bumblebee, id, config, eventDst => some (transformers.Bumblebee.Address sdk id config eventDst)
  | .Function, id, config, eventDst => transformers.Function.Address sdk id config eventDst

/-! ## hcl: evaluation of traversals (reference model of the library) -/

namespace hcl

/-- The value of a variable looked up through a chain of contexts, and whether
some context of the chain has a non-nil `Variables` map (the loop of
`Traversal.TraverseAbs`). -/
def findVariable (name : String) : EvalContext → Bool → Option Value × Bool
  | [], hasNonNil => (none, hasNonNil)
  | none :: parent, hasNonNil => findVariable name parent hasNonNil
  | some vars :: parent, _ =>
    match Value.lookupAttr vars name with
    | some v => (some v, true)
    | none => findVariable name parent true

/-- An error diagnostic with a subject. -/
def errorAt (summary detail : String) (subject : Range) : Diagnostic :=
  { Severity := .DiagError, Summary := summary, Detail := detail, Subject := some subject }

/-- The attribute of a value with diagnostics (`hcl.GetAttr`), for the types
of this model. -/
def GetAttr (obj : Value) (attrName : String) (srcRange : Range) : Value × Diagnostics :=
  if obj.IsNull then
    (.unknown .dynamic, [errorAt "Attempt to get attribute from null value"
      "This value is null, so it does not have any attributes." srcRange])
  else
    match obj.typeOf with
    | .object tys =>
      match Ty.AttributeType tys attrName with
      | none => (.unknown .dynamic, [errorAt "Unsupported attribute"
          ("This object does not have an attribute named \"" ++ attrName ++ "\".") srcRange])
      | some ty =>
        if !obj.IsKnown then (.unknown ty, [])
        else ((obj.GetAttr attrName).getD (.unknown ty), [])
    | .dynamic => (.unknown .dynamic, [])
    | _ => (.unknown .dynamic, [errorAt "Unsupported attribute"
        "This value does not have any attributes." srcRange])

/-- The value reached from a value by attribute steps (`Traversal.TraverseRel`):
it stops at the first step whose diagnostics have an error. -/
def TraverseRel (srcRange : Range) : List String → Value → Diagnostics → Value × Diagnostics
  | [], current, diags => (current, diags)
  | attr :: rest, current, diags =>
    let (next, newDiags) := GetAttr current attr srcRange
    let diags := diags ++ newDiags
    if Diagnostics.HasErrors newDiags then (.unknown .dynamic, diags)
    else TraverseRel srcRange rest next diags

/-- The value of an absolute traversal in a context (`Traversal.TraverseAbs`).
The name suggestion that the library appends to the detail of the
"Unknown variable" diagnostic is left out. -/
def TraverseAbs (t : Traversal) (ctx : EvalContext) : Value × Diagnostics :=
  match findVariable t.Name ctx false with
  | (some val, _) => TraverseRel t.SrcRange t.Attrs val []
  | (none, false) => (.unknown .dynamic, [errorAt "Variables not allowed"
      "Variables may not be used here." t.SrcRange])
  | (none, true) => (.unknown .dynamic, [errorAt "Unknown variable"
      ("There is no variable named \"" ++ t.Name ++ "\".") t.SrcRange])

end hcl

/-- The functions of the hcl library that the safe decoder calls, taken as
parameters. A theorem that takes this record holds for every value of it;
`hclReference.lib` is the instance used to evaluate the safe decoder. -/
structure HclLib where
  /-- The type `hcl.Body`. -/
  Body : Type
  /-- The function `hcldec.Decode`. -/
  Decode : Body → hcldec.Spec → hcl.EvalContext → Value × hcl.Diagnostics
  /-- The function `hcldec.Variables`. -/
  Variables : Body → hcldec.Spec → List hcl.Traversal
  /-- The method `Traversal.TraverseAbs`. -/
  TraverseAbs : hcl.Traversal → hcl.EvalContext → Value × hcl.Diagnostics

/-! ## Component categories (`config`) -/

namespace config

/-- Modelled from the spec: the type `config.ComponentCategory` is not part of
the available sources. "Categories: channel, router, transformer, source,
target, function (reserved)"; any other name has the unknown category. -/
inductive ComponentCategory where
  | CategoryUnknown
  | CategoryChannels
  | CategoryRouters
  | CategoryTransformers
  | CategorySources
  | CategoryTargets
  | CategoryFunctions
  deriving DecidableEq, Repr

/-- Modelled from the spec: `config.AsComponentCategory` is not part of the
available sources. It is the category that a root name of a traversal
`category.identifier` stands for. -/
def AsComponentCategory (s : String) : ComponentCategory :=
  if s = "channel" then .CategoryChannels
  else if s = "router" then .CategoryRouters
  else if s = "transformer" then .CategoryTransformers
  else if s = "source" then .CategorySources
  else if s = "target" then .CategoryTargets
  else if s = "function" then .CategoryFunctions
  else .CategoryUnknown

end config

/-! ## The safe decoder (`lang/decode.go`) -/

namespace lang

/-- Modelled from the spec: `referenceableTypes` is not part of the available
sources. "A component category is referenceable iff vertices in it can appear
in traversals; at minimum: channel, router, transformer, source, target." -/
def referenceableTypes : List config.ComponentCategory :=
  [.CategoryChannels, .CategoryRouters, .CategoryTransformers, .CategorySources,
    .CategoryTargets]

/-- `filterBlockRefs` of `lang/decode.go`: the loop appends the traversals it
keeps to `blockRefs`, which starts empty. -/
def filterBlockRefs (vars : List hcl.Traversal) : List hcl.Traversal :=
  if vars.length = 0 then []
  else
    vars.foldl (fun blockRefs t =>
      let cmpCat := config.AsComponentCategory t.RootName
      if !(referenceableTypes.contains cmpCat) then blockRefs
      else blockRefs ++ [t]) []

/-- Modelled from the spec: a part of `evalContextEnsureVars`, which is not
part of the available sources: the context in which a variable is bound in the
innermost `Variables` map. -/
def bindVariable (name : String) (v : Value) : hcl.EvalContext → hcl.EvalContext
  | [] => [some [(name, v)]]
  | none :: parent => some [(name, v)] :: parent
  | some vars :: parent =>
    some (if (Value.lookupAttr vars name).isSome
      then vars.map (fun kv => if kv.1 = name then (kv.1, v) else kv)
      else vars ++ [(name, v)]) :: parent

/-- Modelled from the spec: a part of `evalContextEnsureVars`, which is not
part of the available sources: the context in which the component that a
traversal `category.identifier` names is bound, to the default value when it
was not bound yet. -/
def ensureVar (defaultVal : Value) (ctx : hcl.EvalContext) (t : hcl.Traversal) :
    hcl.EvalContext :=
  match t.Attrs with
  | [] => ctx
  | id :: _ =>
    match (hcl.findVariable t.RootName ctx false).1 with
    | none => bindVariable t.RootName (.object [(id, defaultVal)]) ctx
    | some (.object attrs) =>
      if (Value.lookupAttr attrs id).isSome then ctx
      else bindVariable t.RootName (.object (attrs ++ [(id, defaultVal)])) ctx
    | some _ => ctx

/-- Modelled from the spec: `evalContextEnsureVars` is not part of the
available sources. "For each such variable not yet bound in C, inject an
unknown placeholder of the destination type into C", where C is "a mapping from
category tag to a mapping from identifier to event-destination value". -/
def evalContextEnsureVars (ctx : hcl.EvalContext) (defaultVal : Value)
    (vars : List hcl.Traversal) : hcl.EvalContext :=
  vars.foldl (ensureVar defaultVal) ctx

/-- `decodeIgnoreUnknownRefs` of `lang/decode.go`. -/
def decodeIgnoreUnknownRefs (h : HclLib) (b : h.Body) (s : hcldec.Spec)
    (ctx : hcl.EvalContext) : Value × hcl.Diagnostics :=
  let blockRefs := filterBlockRefs (h.Variables b s)
  let defaultVal := Value.unknown k8s.DestinationCty
  let ctx := evalContextEnsureVars ctx defaultVal blockRefs
  h.Decode b s ctx

/-- `DecodeSafe` of `lang/decode.go`; the result is the value, the flag
`complete` and the diagnostics. -/
def DecodeSafe (h : HclLib) (b : h.Body) (s : hcldec.Spec) (ctx : hcl.EvalContext) :
    Value × Bool × hcl.Diagnostics :=
  let diags : hcl.Diagnostics := []
  let (config, decDiags) := h.Decode b s ctx
  if !decDiags.HasErrors then (config, true, diags.Extend decDiags)
  else
    let (config, decDiags) := decodeIgnoreUnknownRefs h b s ctx
    let diags := diags.Extend decDiags
    (config, false, diags)

/-- `TraverseAbsSafe` of `lang/decode.go`; the result is the value, the flag
`complete` and the diagnostics. -/
def TraverseAbsSafe (h : HclLib) (t : hcl.Traversal) (ctx : hcl.EvalContext) :
    Value × Bool × hcl.Diagnostics :=
  let diags : hcl.Diagnostics := []
  let (val, evalDiags) := h.TraverseAbs t ctx
  if !evalDiags.HasErrors then (val, true, diags.Extend evalDiags)
  else
    let defaultVal := Value.unknown k8s.DestinationCty
    let ctx := evalContextEnsureVars ctx defaultVal (filterBlockRefs [t])
    let (val, evalDiags) := h.TraverseAbs t ctx
    let diags := diags.Extend evalDiags
    (val, false, diags)

end lang

/-! ## A reference instance of the hcl library -/

/-- An expression of an attribute: a literal value or a reference to a
variable. -/
inductive RefExpr where
  | lit (v : Value)
  | var (t : hcl.Traversal)

/-- A body made of attributes, in the order they are written. -/
abbrev RefBody := List (String × RefExpr)

/-- The expression of an attribute of a body. -/
def RefBody.find : RefBody → String → Option RefExpr
  | [], _ => none
  | (n, e) :: rest, name => if n = name then some e else RefBody.find rest name

namespace hclReference

/-- The value of an expression in a context. -/
def eval (ctx : hcl.EvalContext) : RefExpr → Value × hcl.Diagnostics
  | .lit v => (v, [])
  | .var t => hcl.TraverseAbs t ctx

mutual
/-- Decoding of a body of attributes in the manner of `hcldec.Decode`: an
attribute that is missing is null and an error when it is required, an
attribute that is present has the value of its expression, a validator runs
when its attribute decoded without error. Type conversion is left out. -/
def decode (b : RefBody) (ctx : hcl.EvalContext) : hcldec.Spec → Value × hcl.Diagnostics
  | .AttrSpec name ty required =>
    match b.find name with
    | none =>
      (.null ty, if required then [hcl.Diagnostic.mk .DiagError "Missing required argument"
        ("The argument \"" ++ name ++ "\" is required, but no definition was found.") none]
        else [])
    | some e => eval ctx e
  | .ValidateSpec wrapped f =>
    let (v, diags) := decode b ctx wrapped
    if hcl.Diagnostics.HasErrors diags then (.unknown .dynamic, diags)
    else (v, diags ++ f v)
  | .ObjectSpec attrs =>
    let (fields, diags) := decodeAttrs b ctx attrs
    (.object fields, diags)
/-- Decoding of the attributes of an object specification, one by one. -/
def decodeAttrs (b : RefBody) (ctx : hcl.EvalContext) :
    List (String × hcldec.Spec) → List (String × Value) × hcl.Diagnostics
  | [] => ([], [])
  | (n, sp) :: rest =>
    let (v, diags) := decode b ctx sp
    let (vs, more) := decodeAttrs b ctx rest
    ((n, v) :: vs, diags ++ more)
end

/-- The variables that the expressions of a body refer to. -/
def variablesOf : RefBody → List hcl.Traversal
  | [] => []
  | (_, .lit _) :: rest => variablesOf rest
  | (_, .var t) :: rest => t :: variablesOf rest

end hclReference

/-- A reference instance of `HclLib`: bodies of attributes whose expressions
are literals or variables, evaluated with the reference model of
`Traversal.TraverseAbs`. -/
def hclReference.lib : HclLib where
  Body := RefBody
  Decode := fun b s ctx => hclReference.decode b ctx s
  Variables := fun b _ => hclReference.variablesOf b
  TraverseAbs := hcl.TraverseAbs

/-! ## The CLI commands (`commands.go`) -/

namespace commands

/-- The name of the "generate" subcommand. -/
def cmdGenerate : String := "generate"

/-- The name of the "validate" subcommand. -/
def cmdValidate : String := "validate"

/-- The name of the "graph" subcommand. -/
def cmdGraph : String := "graph"

/-- `usageGenerate` of `commands.go`. -/
def usageGenerate (cmdName : String) : String :=
  "Generates the Kubernetes manifests which allow a Bridge to be deployed " ++
  "to TriggerMesh, and writes them to standard output.\n" ++
  "\n" ++
  "USAGE:\n" ++
  "    " ++ cmdName ++ " " ++ cmdGenerate ++ " FILE [OPTION]...\n" ++
  "\n" ++
  "OPTIONS:\n" ++
  "    --bridge     Output a Bridge object instead of a List-manifest.\n" ++
  "    --yaml       Output generated manifests in YAML format.\n"

/-- `usageValidate` of `commands.go`. -/
def usageValidate (cmdName : String) : String :=
  "Verifies that a Bridge is syntactically valid and can be generated. " ++
  "Returns with an exit code of 0 in case of success, with an exit code of 1 " ++
  "otherwise.\n" ++
  "\n" ++
  "USAGE:\n" ++
  "    " ++ cmdName ++ " " ++ cmdValidate ++ " FILE\n"

/-- `usageGraph` of `commands.go`. -/
def usageGraph (cmdName : String) : String :=
  "Generates a DOT representation of a Bridge and writes it to standard " ++
  "output.\n" ++
  "\n" ++
  "USAGE:\n" ++
  "    " ++ cmdName ++ " " ++ cmdGraph ++ " FILE\n"

/-- `splitArgs` of `commands.go`, for a number of positional arguments that is
not negative. -/
def splitArgs (n : Nat) (args : List String) : List String × List String :=
  match args with
  | [] => ([], [])
  | first :: _ =>
    if n = 0 || (first != "" && first.front == '-') then ([], args)
    else if args.length ≤ n then (args, [])
    else (args.take n, args.drop n)

/-- The bytes given to one call of `Write` (`[]byte`). -/
abbrev Bytes := List UInt8

/-- The Go `error` values that a command returns. -/
inductive Error where
  /-- An error made by `fmt.Errorf` from a text alone. -/
  | message (text : String)
  /-- The diagnostics of a phase, returned as the error. -/
  | diagnostics (diags : hcl.Diagnostics)
  /-- An error made by `fmt.Errorf` that wraps (`%w`) the error of a collaborator. -/
  | wrapped (context : String) (cause : String)
  /-- The error of a collaborator, returned as it is. -/
  | collaborator (cause : String)

/-- The collaborators of the commands, whose source is not available
(`config/file`, `core`, `encoding`, `graph/dot`, the `flag` package and the
writer behind `stdout`), taken as parameters. -/
structure Env where
  /-- The type `*config.Bridge`. -/
  Bridge : Type
  /-- The type `*core.Context`. -/
  Context : Type
  /-- The type `*graph.DirectedGraph`. -/
  Graph : Type
  /-- The name of the flag set (`flagSet.Name()`). -/
  Name : String
  /-- The parsing of the flags by a flag set that knows the given boolean
  flags and uses `ExitOnError`: the values of the flags, or `none` when the
  process exits inside `Parse`. -/
  Parse : List String → List String → Option (String → Bool)
  /-- The method `LoadBridge` of `file.NewParser()`. -/
  LoadBridge : String → Bridge × hcl.Diagnostics
  /-- The field `Identifier` of a Bridge. -/
  Identifier : Bridge → String
  /-- The function `core.NewContext`. -/
  NewContext : Bridge → Context × hcl.Diagnostics
  /-- The method `Generate` of a context. -/
  Generate : Context → List Obj × hcl.Diagnostics
  /-- The method `Graph` of a context. -/
  Graph_ : Context → Graph × hcl.Diagnostics
  /-- The function `dot.Marshal`. -/
  Marshal : Graph → Except String Bytes
  /-- The method `WriteBridgeYAML` of the serializer made for an identifier:
  the calls of `Write` it makes on the writer and the error it returns. -/
  WriteBridgeYAML : String → List Obj → List Bytes × Option String
  /-- The method `WriteBridgeJSON` of the serializer made for an identifier. -/
  WriteBridgeJSON : String → List Obj → List Bytes × Option String
  /-- The method `WriteManifestsYAML` of the serializer made for an identifier. -/
  WriteManifestsYAML : String → List Obj → List Bytes × Option String
  /-- The method `WriteManifestsJSON` of the serializer made for an identifier. -/
  WriteManifestsJSON : String → List Obj → List Bytes × Option String
  /-- The error, if any, that `stdout.Write` returns for the given bytes. -/
  StdoutWrite : Bytes → Option String

/-- What a call of `Run` did: the error it returned (`none` for nil) and the
calls of `Write` made on `stdout`, in order. -/
structure Result where
  err : Option Error
  stdout : List Bytes

/-- `GenerateCommand.Run` of `commands.go`; `none` when the process exits
while the flags are parsed. -/
def GenerateCommand.Run (env : Env) (args : List String) : Option Result :=
  let (pos, flags) := splitArgs 1 args
  match env.Parse ["bridge", "yaml"] flags with
  | none => none
  | some flag =>
    let bridge := flag "bridge"
    let yaml := flag "yaml"
    match pos with
    | [filePath] =>
      let defaultBridgeIdentifier := "til_generated"
      let (brg, diags) := env.LoadBridge filePath
      if diags.HasErrors then some ⟨some (.diagnostics diags), []⟩
      else
        let (ctx, diags) := env.NewContext brg
        if diags.HasErrors then some ⟨some (.diagnostics diags), []⟩
        else
          let (manifests, diags) := env.Generate ctx
          if diags.HasErrors then some ⟨some (.diagnostics diags), []⟩
          else
            let brgID := env.Identifier brg
            let brgID := if brgID = "" then defaultBridgeIdentifier else brgID
            let w :=
              if bridge && yaml then env.WriteBridgeYAML brgID
              else if bridge then env.WriteBridgeJSON brgID
              else if yaml then env.WriteManifestsYAML brgID
              else env.WriteManifestsJSON brgID
            let (writes, err) := w manifests
            some ⟨err.map Error.collaborator, writes⟩
    | _ =>
      some ⟨some (.message ("unexpected number of positional arguments.\n\n" ++
        usageGenerate env.Name)), []⟩

/-- `ValidateCommand.Run` of `commands.go`. -/
def ValidateCommand.Run (env : Env) (args : List String) : Option Result :=
  let (pos, flags) := splitArgs 1 args
  match env.Parse [] flags with
  | none => none
  | some _ =>
    match pos with
    | [filePath] =>
      let (brg, diags) := env.LoadBridge filePath
      if diags.HasErrors then some ⟨some (.diagnostics diags), []⟩
      else
        let (ctx, diags) := env.NewContext brg
        if diags.HasErrors then some ⟨some (.diagnostics diags), []⟩
        else
          let (_, diags) := env.Generate ctx
          if diags.HasErrors then some ⟨some (.diagnostics diags), []⟩
          else some ⟨none, []⟩
    | _ =>
      some ⟨some (.message ("unexpected number of positional arguments.\n\n" ++
        usageValidate env.Name)), []⟩

/-- `GraphCommand.Run` of `commands.go`. -/
def GraphCommand.Run (env : Env) (args : List String) : Option Result :=
  let (pos, flags) := splitArgs 1 args
  match env.Parse [] flags with
  | none => none
  | some _ =>
    match pos with
    | [filePath] =>
      let (brg, diags) := env.LoadBridge filePath
      if diags.HasErrors then some ⟨some (.diagnostics diags), []⟩
      else
        let (ctx, diags) := env.NewContext brg
        if diags.HasErrors then some ⟨some (.diagnostics diags), []⟩
        else
          let (g, diags) := env.Graph_ ctx
          if diags.HasErrors then some ⟨some (.diagnostics diags), []⟩
          else
            match env.Marshal g with
            | .error err => some ⟨some (.wrapped "marshaling graph to DOT" err), []⟩
            | .ok dg =>
              match env.StdoutWrite dg with
              | some err => some ⟨some (.wrapped "writing generated DOT graph" err), [dg]⟩
              | none => some ⟨none, [dg]⟩
    | _ =>
      some ⟨some (.message ("unexpected number of positional arguments.\n\n" ++
        usageGraph env.Name)), []⟩

end commands

/-! ## A reference instance of the helpers -/

namespace reference

/-- Modelled from the spec: `k8s.RFC1123Name` is not part of the available
sources. "Identifiers used as object names are normalized to RFC 1123
(lowercase, alphanumerics and `-`, max 63 chars, leading/trailing
alphanumeric)": a character of a name is a lowercase letter, a digit or `-`. -/
def isRFC1123Char (c : Char) : Bool :=
  c.isLower || c.isDigit || c == '-'

/-- Modelled from the spec: whether a string is a name in the sense of
RFC 1123, after the same sentence: at most 63 characters, each of them a
lowercase letter, a digit or `-`, the first and the last one alphanumeric. -/
def isRFC1123Name (s : String) : Bool :=
  let cs := s.data
  decide (0 < cs.length) && decide (cs.length ≤ 63) && cs.all isRFC1123Char &&
    (cs.head?.map Char.isAlphanum).getD false && (cs.getLast?.map Char.isAlphanum).getD false

/-- The characters of a list without its leading `-`. -/
def dropDashes : List Char → List Char
  | [] => []
  | c :: rest => if c == '-' then dropDashes rest else c :: rest

/-- Modelled from the spec: a normalisation to RFC 1123, after the same
sentence: letters are lowercased, every other character that is not a digit
becomes `-`, the result is cut to 63 characters and loses its leading and
trailing `-`. -/
def RFC1123Name (id : String) : String :=
  let lowered := id.data.map (fun c => if c.isAlphanum then c.toLower else '-')
  String.mk (dropDashes ((dropDashes (lowered.take 63)).reverse)).reverse

/-- A secret key reference: the name of a secret and a key of it. -/
def secretKeyRef (name key : String) : Obj :=
  [("name", .str name), ("key", .str key)]

/-- The `ref` map of a destination value, empty when it cannot be read. -/
def decodeDestination (dst : Value) : Obj :=
  (sources.sinkOf dst).getD []

/-- A subscription of a subscriber to a channel, before its options. -/
def newSubscription (apiMessaging name channel : String) (subscriber : Value) : Obj :=
  let s := k8s.NewObject apiMessaging "Subscription" name
  let s := unstructured.setNested s (.str apiMessaging) ["spec", "channel", "apiVersion"]
  let s := unstructured.setNested s (.str "Channel") ["spec", "channel", "kind"]
  let s := unstructured.setNested s (.str channel) ["spec", "channel", "name"]
  unstructured.setNested s (.map (decodeDestination subscriber)) ["spec", "subscriber", "ref"]

/-- The reply destination of a subscription. -/
def replyDest (dst : Value) (s : Obj) : Obj :=
  unstructured.setNested s (.map (decodeDestination dst)) ["spec", "reply", "ref"]

/-- A reference instance of the helpers, used to evaluate the translators on
concrete inputs. -/
def sdk : Sdk where
  RFC1123Name := RFC1123Name
  APITargets := "targets.triggermesh.io/v1alpha1"
  APIMessaging := "messaging.knative.dev/v1"
  APIEventingV1Alpha1 := "eventing.knative.dev/v1alpha1"
  SecretKeyRefsAWS := fun n => (secretKeyRef n "access_key_id", secretKeyRef n "secret_access_key")
  SecretKeyRefsDatadog := fun n => secretKeyRef n "apiKey"
  SecretKeyRefsKafka := fun n => (secretKeyRef n "protocol", secretKeyRef n "user",
    secretKeyRef n "password", secretKeyRef n "ca.crt", secretKeyRef n "user.crt",
    secretKeyRef n "user.key")
  SecretKeyRefsAzureSP := fun n => (secretKeyRef n "tenantID", secretKeyRef n "clientID",
    secretKeyRef n "clientSecret")
  DecodeStringSlice := fun v => ((v.Elements).bind sources.stringElements).getD []
  DecodeDestination := decodeDestination
  Accessor := Unit
  SubscriptionOption := Obj → Obj
  ReplyDest := replyDest
  AppendDeliverySubscriptionOptions := fun opts _ => opts
  NewSubscription := fun name channel subscriber opts =>
    opts.foldl (fun s opt => opt s)
      (newSubscription "messaging.knative.dev/v1" name channel subscriber)
  NewSubscriptionReply := fun name channel subscriber reply =>
    replyDest reply (newSubscription "messaging.knative.dev/v1" name channel subscriber)

end reference


/-- Whether the `runtime` attribute of a configuration of a `function`
transformer is `js`, the test of `Function.Address`; `none` is a panic. -/
def transformers.Function.runtimeIsJS (config : Value) : Option Bool := do
  pure (decide ((← (← config.GetAttr "runtime").AsString) = "js"))

/-! ## Example inputs -/

namespace example_inputs

/-- A reference to the secret `creds`. -/
def secretRef : Value :=
  .object [("apiVersion", .str "v1"), ("kind", .str "Secret"), ("name", .str "creds")]

/-- A configuration of a `function` transformer whose runtime is `js`. -/
def functionJS : Value :=
  .object [("runtime", .str "js"), ("code", .str "function handle(e) \x7b return e \x7d"),
    ("entrypoint", .null .string), ("public", .null .bool)]

/-- Another configuration of a `function` transformer whose runtime is `js`. -/
def functionJSPublic : Value :=
  .object [("runtime", .str "js"), ("code", .str "function handle(e) \x7b return null \x7d"),
    ("entrypoint", .null .string), ("public", .bool true)]

/-- A configuration of a `function` transformer whose runtime is `python`. -/
def functionPython : Value :=
  .object [("runtime", .str "python"), ("code", .str "def main(e): return e"),
    ("entrypoint", .null .string), ("public", .null .bool)]

/-- A configuration of an `aws_sns` target. -/
def awsSNS : Value :=
  .object [("arn", .str "arn:aws:sns:us-east-1:123456789012:topic"), ("credentials", secretRef)]

/-- A configuration of a `datadog` target. -/
def datadog : Value :=
  .object [("metric_prefix", .null .string), ("auth", secretRef)]

/-- A configuration of a `kafka` target. -/
def kafkaTarget : Value :=
  .object [("topic", .str "t"), ("bootstrap_servers", .list .string [.str "k:9092"]),
    ("auth", secretRef)]

/-- The configuration of the `kafka` source of the first end-to-end scenario:
`bootstrap_servers = ["k:9092"]`, `topics = ["t"]`, `sasl_auth` a secret. -/
def kafkaSource : Value :=
  .object [("consumer_group", .null .string),
    ("bootstrap_servers", .list .string [.str "k:9092"]),
    ("topics", .list .string [.str "t"]),
    ("sasl_auth", secretRef),
    ("tls", .null .dynamic)]

/-- A configuration of an `azure_activity_logs` source. -/
def azureActivityLogs : Value :=
  .object [("event_hub_id", .str "/subscriptions/s/resourceGroups/g/hub"),
    ("event_hubs_sas_policy", .null .string),
    ("categories", .null (.list .string)),
    ("auth", secretRef)]

/-- The destination of some object of kind `Channel`. -/
def someDestination : Value :=
  k8s.NewDestination "messaging.knative.dev/v1" "Channel" "next"

/-- The range of the reference `target.foo` in a Bridge file. -/
def targetFooRange : hcl.Range :=
  { Filename := "bridge.hcl", Start := ⟨3, 8, 40⟩, End := ⟨3, 18, 50⟩ }

/-- The traversal `target.foo`. -/
def targetFoo : hcl.Traversal :=
  { Name := "target", SrcRange := targetFooRange, Attrs := ["foo"] }

/-- The body `sink = target.foo`. -/
def sinkBody : RefBody := [("sink", .var targetFoo)]

/-- The schema of one required attribute `sink` of the destination type. -/
def sinkSpec : hcldec.Spec :=
  .ObjectSpec [("sink", .AttrSpec "sink" k8s.DestinationCty true)]

/-- An evaluation context that has variables, none of them named `target`:
the channel `c` is bound. -/
def channelOnly : hcl.EvalContext :=
  [some [("channel", .object [("c", someDestination)])]]

/-- The diagnostic of a file that cannot be read. -/
def cannotRead : hcl.Diagnostic :=
  { Severity := .DiagError, Summary := "Failed to read file",
    Detail := "The file could not be read.", Subject := none }

/-- Collaborators of the commands for which the file `bridge.hcl` loads and
generates without diagnostics and every other file cannot be read; the
flags are read off the arguments as they are. -/
def env : commands.Env where
  Bridge := String
  Context := String
  Graph := String
  Name := "til"
  Parse := fun _ arguments => some (fun name => arguments.contains ("--" ++ name))
  LoadBridge := fun path => (path, if path = "bridge.hcl" then [] else [cannotRead])
  Identifier := fun _ => ""
  NewContext := fun brg => (brg, [])
  Generate := fun _ => ([], [])
  Graph_ := fun ctx => (ctx, [])
  Marshal := fun _ => .ok []
  WriteBridgeYAML := fun _ _ => ([[]], none)
  WriteBridgeJSON := fun _ _ => ([[]], none)
  WriteManifestsYAML := fun _ _ => ([[]], none)
  WriteManifestsJSON := fun _ _ => ([[]], none)
  StdoutWrite := fun _ => none

end example_inputs

/-! ## Invariants of a manifest under construction -/

/-- The manifest has nothing at `spec.sink` yet: it has no `spec`, or a `spec`
map without the key `sink`. -/
def Obj.sinkFree (o : Obj) : Bool :=
  match o.get "spec" with
  | none => true
  | some (.map sp) => (Obj.get sp "sink").isNone
  | some _ => false

/-- The second manifest differs from the first one below `spec` only, and has
nothing at `spec.sink` if the first one has nothing there. -/
def Obj.specStep (o o1 : Obj) : Prop :=
  (∀ k, k ≠ "spec" → o1.get k = o.get k) ∧ (o.sinkFree = true → o1.sinkFree = true)

/-! ## The manifests of the transformers (`internal/components/transformers`) -/

/-- The attributes of a known object value (`Value.AsValueMap`, which panics on
an unknown or null value and on a value that is not an object). -/
def Value.AsValueMap : Value → Option (List (String × Value))
  | .object attrs => some attrs
  | _ => none

namespace transformers

/-- The block `case "js"` of `Function.Manifests`. -/
def Function.manifestsJS (sdk : Sdk) (name code : String) (eventDst : Value) : List Obj :=
  let t := k8s.NewObject "targets.triggermesh.io/v1alpha1" "InfraTarget" name
  let t := k8s.Object.SetNestedField t (.str code) ["spec", "script", "code"]
  let ch := k8s.NewChannel sdk name
  let subs := sdk.NewSubscriptionReply name name
    (k8s.NewDestination "targets.triggermesh.io/v1alpha1" "InfraTarget" name) eventDst
  [] ++ [t, ch, subs]

/-- The block `default` of `Function.Manifests`. -/
def Function.manifestsDefault (sdk : Sdk) (name code runtime : String) (config eventDst : Value) :
    Option (List Obj) := do
  let f := k8s.NewObject "flow.triggermesh.io/v1alpha1" "Function" name
  let f := k8s.Object.SetNestedField f (.str runtime) ["spec", "runtime"]
  let f := k8s.Object.SetNestedField f (.str code) ["spec", "code"]
  let v ← config.GetAttr "entrypoint"
  let entrypoint ← if !v.IsNull then v.AsString else pure "main"
  let f := k8s.Object.SetNestedField f (.str entrypoint) ["spec", "entrypoint"]
  let sink := sdk.DecodeDestination eventDst
  let f := k8s.Object.SetNestedField f (.map sink) ["spec", "sink", "ref"]
  let public_ ← (← config.GetAttr "public").True
  let f := k8s.Object.SetNestedField f (.bool public_) ["spec", "public"]
  pure ([] ++ [f])

/-- `Function.Manifests` of `transformers/function.go`, the two cases of its
`switch` being the two definitions above. -/
def Function.Manifests (sdk : Sdk) (id : String) (config eventDst : Value) :
    Option (List Obj) := do
  let name := sdk.RFC1123Name id
  let code ← (← config.GetAttr "code").AsString
  let runtime ← (← config.GetAttr "runtime").AsString
  if runtime = "js" then pure (Function.manifestsJS sdk name code eventDst)
  else Function.manifestsDefault sdk name code runtime config eventDst

/-- The value of a key of the map of a path that is set and not null, `none`
when the key is missing (the zero value, which is null) or null; the outer
`none` is the panic of `AsString`. -/
def pathEntry (pathValMap : List (String × Value)) (key : String) : Option (Option String) :=
  match Value.lookupAttr pathValMap key with
  | none => some none
  | some v => if !v.IsNull then v.AsString.map some else some none

/-- The inner loop of `parseBumblebeeOperations`, over the paths of one
operation. -/
def parseBumblebeePaths : List Value → Option (List Any)
  | [] => some []
  | pathVal :: rest => do
    let path : Obj := []
    let pathValMap ← pathVal.AsValueMap
    let path := match ← pathEntry pathValMap "key" with
      | some key => Obj.put path "key" (.str key)
      | none => path
    let path := match ← pathEntry pathValMap "value" with
      | some value => Obj.put path "value" (.str value)
      | none => path
    let paths ← parseBumblebeePaths rest
    pure (Any.map path :: paths)

/-- `parseBumblebeeOperations` of `transformers/bumblebee.go`. -/
def parseBumblebeeOperations : List Value → Option (List Any)
  | [] => some []
  | operationVal :: rest => do
    let operationValMap ← operationVal.AsValueMap
    let operation ← (← Value.lookupAttr operationValMap "operation").AsString
    let pathVals ← (← Value.lookupAttr operationValMap "path").Elements
    let paths ← parseBumblebeePaths pathVals
    let operations ← parseBumblebeeOperations rest
    pure (Any.map [("operation", .str operation), ("paths", .slice paths)] :: operations)

/-- The operations of a block of the config of `Bumblebee.Manifests`:
`parseBumblebeeOperations(config.GetAttr(name).AsValueSlice())`. -/
def Bumblebee.operations (config : Value) (name : String) : Option (List Any) := do
  parseBumblebeeOperations (← (← config.GetAttr name).Elements)

/-- `Bumblebee.Manifests` of `transformers/bumblebee.go`. -/
def Bumblebee.Manifests (sdk : Sdk) (id : String) (config eventDst : Value) :
    Option (List Obj) := do
  let manifests : List Obj := []
  let transf : Obj := []
  let transf := unstructured.SetAPIVersion transf "flow.triggermesh.io/v1alpha1"
  let transf := unstructured.SetKind transf "Transformation"
  let transf := unstructured.SetName transf (sdk.RFC1123Name id)
  let context ← Bumblebee.operations config "context"
  let transf := unstructured.setNested transf (.slice context) ["spec", "context"]
  let data ← Bumblebee.operations config "data"
  let transf := unstructured.setNested transf (.slice data) ["spec", "data"]
  let sink ← sources.sinkOf eventDst
  let transf := unstructured.setNested transf (.map sink) ["spec", "sink", "ref"]
  pure (manifests ++ [transf])

end transformers

/-- The method `Manifests` of an addressable component; `none` is a panic. The
transformers take no globals accessor. -/
def Addressable.Manifests (sdk : Sdk) :
    Addressable → String → Value → Value → sdk.Accessor → Option (List Obj)
  | .AWSSNS, id, config, eventDst, glb => targets.AWSSNS.Manifests sdk id config eventDst glb
  | .Datadog, id, config, eventDst, glb => targets.Datadog.Manifests sdk id config eventDst glb
  | .KafkaTarget, id, config, eventDst, glb => targets.Kafka.Manifests sdk id config eventDst glb
  | .Bumblebee, id, config, eventDst, _ => transformers.Bumblebee.Manifests sdk id config eventDst
  | .Function, id, config, eventDst, _ => transformers.Function.Manifests sdk id config eventDst

namespace config

/-- Modelled from the spec: a channel record of a Bridge, of which the source
reads the field `Identifier`; the type of the component stands for the other
fields. -/
structure Channel where
  Type_ : String
  Identifier : String
  deriving DecidableEq, Repr

/-- Modelled from the spec: a router record of a Bridge. -/
structure Router where
  Type_ : String
  Identifier : String
  deriving DecidableEq, Repr

/-- Modelled from the spec: a transformer record of a Bridge. -/
structure Transformer where
  Type_ : String
  Identifier : String
  deriving DecidableEq, Repr

/-- Modelled from the spec: a source record of a Bridge. -/
structure Source where
  Type_ : String
  Identifier : String
  deriving DecidableEq, Repr

/-- Modelled from the spec: a target record of a Bridge. -/
structure Target where
  Type_ : String
  Identifier : String
  deriving DecidableEq, Repr

/-- Modelled from the spec: the five collections of a Bridge that `Transform`
ranges over, each as the list of its records in the order in which `range`
visits them. -/
structure Bridge where
  Channels : List Channel
  Routers : List Router
  Transformers : List Transformer
  Sources : List Source
  Targets : List Target
  deriving DecidableEq, Repr

end config

namespace addr

/-- The address `addr.Channel` with the one field that the source sets. -/
structure Channel where
  Identifier : String
  deriving DecidableEq, Repr

/-- The address `addr.Router`. -/
structure Router where
  Identifier : String
  deriving DecidableEq, Repr

/-- The address `addr.Transformer`. -/
structure Transformer where
  Identifier : String
  deriving DecidableEq, Repr

/-- The address `addr.Target`. -/
structure Target where
  Identifier : String
  deriving DecidableEq, Repr

/-- Modelled from the spec: the address `addr.MessagingComponent` of a
component, which is its category, its type and its identifier. -/
structure MessagingComponent where
  Category : config.ComponentCategory
  Type_ : String
  Identifier : String
  deriving DecidableEq, Repr

end addr

namespace graph

/-- Modelled from the spec: a directed graph is its vertices, in the order in
which they were added, and its edges. -/
structure DirectedGraph (V : Type) where
  vertices : List V
  edges : List (V × V)

/-- Modelled from the spec: `DirectedGraph.Add` adds a vertex and touches
nothing else. Each vertex that `Transform` adds is a newly allocated one, so
it is never one that the graph has already. -/
def DirectedGraph.Add {V : Type} (g : DirectedGraph V) (v : V) : DirectedGraph V :=
  { g with vertices := g.vertices ++ [v] }

end graph

namespace core

/-- The five vertex types of the components, each with the fields that the
struct literals of `Transform` set; `SourceVertex` is given no `Addr`. -/
inductive Vertex
  | ChannelVertex (Addr : addr.Channel) (Channel : config.Channel)
  | RouterVertex (Addr : addr.Router) (Router : config.Router)
  | TransformerVertex (Addr : addr.Transformer) (Transformer : config.Transformer)
  | SourceVertex (Source : config.Source)
  | TargetVertex (Addr : addr.Target) (Target : config.Target)
  deriving DecidableEq, Repr

/-- Modelled from the spec: `ComponentAddr` of a vertex, the category of the
vertex with the type of its record and the identifier of the address that the
vertex carries; a source vertex carries no address of its own and answers
from its record. -/
def Vertex.ComponentAddr : Vertex → addr.MessagingComponent
  | .ChannelVertex a ch => ⟨.CategoryChannels, ch.Type_, a.Identifier⟩
  | .RouterVertex a rtr => ⟨.CategoryRouters, rtr.Type_, a.Identifier⟩
  | .TransformerVertex a trsf => ⟨.CategoryTransformers, trsf.Type_, a.Identifier⟩
  | .SourceVertex src => ⟨.CategorySources, src.Type_, src.Identifier⟩
  | .TargetVertex a trg => ⟨.CategoryTargets, trg.Type_, a.Identifier⟩

/-- The identifier of the record that a vertex owns. -/
def Vertex.recordIdentifier : Vertex → String
  | .ChannelVertex _ ch => ch.Identifier
  | .RouterVertex _ rtr => rtr.Identifier
  | .TransformerVertex _ trsf => trsf.Identifier
  | .SourceVertex src => src.Identifier
  | .TargetVertex _ trg => trg.Identifier

/-- `AddComponentsTransformer.Transform`: the graph after the five loops and
the diagnostics returned. -/
def AddComponentsTransformer.Transform (bridge : config.Bridge)
    (g : graph.DirectedGraph Vertex) : graph.DirectedGraph Vertex × hcl.Diagnostics :=
  let diags : hcl.Diagnostics := []
  let g := bridge.Channels.foldl (fun g ch =>
    let v := Vertex.ChannelVertex { Identifier := ch.Identifier } ch
    g.Add v) g
  let g := bridge.Routers.foldl (fun g rtr =>
    let v := Vertex.RouterVertex { Identifier := rtr.Identifier } rtr
    g.Add v) g
  let g := bridge.Transformers.foldl (fun g trsf =>
    let v := Vertex.TransformerVertex { Identifier := trsf.Identifier } trsf
    g.Add v) g
  let g := bridge.Sources.foldl (fun g src =>
    let v := Vertex.SourceVertex src
    g.Add v) g
  let g := bridge.Targets.foldl (fun g trg =>
    let v := Vertex.TargetVertex { Identifier := trg.Identifier } trg
    g.Add v) g
  (g, diags)

end core

/-! ## The function `file` (`lang/funcs/file.go`) -/

namespace funcs

/-- The collaborators of `fileFuncImpl`: the file system `fs.FS` with its
files, the path functions of `path/filepath`, `io.ReadAll`, which returns
what it has read together with the error that stopped it, if any, and
`cty.NormalizeString`, the normal form NFC of Unicode in which cty keeps every
string value. -/
structure FS where
  File : Type
  IsAbs : String → Bool
  Join : String → String → String
  Open : String → Except String File
  ReadAll : File → String × Option String
  NormalizeString : String → String

/-- `cty.StringVal(v)`: the string value of a Go string, which is the string
in the normal form of `cty.NormalizeString` and not the string as given. -/
def StringVal (fs : FS) (v : String) : Value :=
  .str (fs.NormalizeString v)

/-- An error made by `fmt.Errorf("context: %w", err)`. -/
structure Error where
  context : String
  cause : String
  deriving DecidableEq, Repr

/-- What a call of the implementation of `file` returns, with what it did to
the file system: the paths given to `fs.Open`, in order, and whether the
deferred `Close` of the opened file has run. -/
structure Result where
  val : Value
  err : Option Error
  opened : List String
  closed : Bool

/-- `fileFuncImpl(basedir, fs)` applied to its arguments; `none` is the panic
of `args[0]` or of `AsString` on an argument that is not a known string. -/
def fileFuncImpl (basedir : String) (fs : FS) (args : List Value) : Option Result := do
  let path ← (← args.head?).AsString
  let path := if !fs.IsAbs path then fs.Join basedir path else path
  match fs.Open path with
  | .error err => pure ⟨.unknown .string, some ⟨"opening file", err⟩, [path], false⟩
  | .ok fd =>
    match fs.ReadAll fd with
    | (_, some err) => pure ⟨.unknown .string, some ⟨"reading file contents", err⟩, [path], true⟩
    | (data, none) => pure ⟨StringVal fs data, none, [path], true⟩

end funcs

namespace reference

/-- The composition of a Latin small vowel with the combining acute accent
U+0301 (`a`, `e`, `i`, `o`, `u` give U+00E1, U+00E9, U+00ED, U+00F3, U+00FA). -/
def composeAcute (c : Char) : Option Char :=
  if c = 'a' then some (Char.ofNat 0xE1)
  else if c = 'e' then some (Char.ofNat 0xE9)
  else if c = 'i' then some (Char.ofNat 0xED)
  else if c = 'o' then some (Char.ofNat 0xF3)
  else if c = 'u' then some (Char.ofNat 0xFA)
  else none

/-- The characters of a string after the compositions of `composeAcute`. -/
def normalizeChars : List Char → List Char
  | [] => []
  | [c] => [c]
  | c :: d :: rest =>
    if d = Char.ofNat 0x301 then
      match composeAcute c with
      | some composed => composed :: normalizeChars rest
      | none => c :: d :: normalizeChars rest
    else c :: normalizeChars (d :: rest)

/-- A fragment of `cty.NormalizeString` (the normal form NFC of
`golang.org/x/text/unicode/norm`), enough for the examples: a Latin small
vowel followed by the combining acute accent is composed into the one
accented letter, and every other character is kept. -/
def NormalizeString (s : String) : String :=
  ⟨normalizeChars s.data⟩

end reference

namespace example_inputs

/-- A Kafka source block that sets no `tls`. -/
def kafkaSourceBody : RefBody :=
  [("bootstrap_servers", .lit (.list .string [.str "k:9092"])),
   ("topics", .lit (.list .string [.str "t"])),
   ("sasl_auth", .lit secretRef)]

/-- The decoded configuration of the example in the comment of
`Bumblebee.Spec`: a `context` block with the operations `store` and `add`, and
a `data` block. -/
def bumblebee : Value :=
  let pathTy := Ty.object [("key", Ty.string), ("value", Ty.string)]
  let opTy := Ty.object [("operation", Ty.string), ("path", Ty.list pathTy)]
  let path := fun (key value : Value) => Value.object [("key", key), ("value", value)]
  let op := fun (name : String) (paths : List Value) =>
    Value.object [("operation", .str name), ("path", .list pathTy paths)]
  .object
    [("context", .list opTy
      [op "store" [path (.str "$id") (.str "id"), path (.str "$type") (.str "type")],
       op "add" [path (.str "idtype") (.str "$\x7bid\x7d-$\x7btype\x7d")]]),
     ("data", .list opTy
      [op "store" [path (.str "$payload") (.null .string)]])]

/-- A bridge with one record in each collection but two targets. -/
def bridge : config.Bridge :=
  { Channels := [⟨"pubsub", "ch"⟩],
    Routers := [⟨"content_based", "rt"⟩],
    Transformers := [⟨"function", "fn"⟩],
    Sources := [⟨"kafka", "src"⟩],
    Targets := [⟨"aws_sns", "a"⟩, ⟨"datadog", "b"⟩] }

/-- The contents of the file `/bridges/accent.txt`: the letter `e` followed by
the combining acute accent U+0301 (the bytes `65 CC 81` in UTF-8). -/
def accentContents : String :=
  ⟨['e', Char.ofNat 0x301]⟩

/-- A file system with the file `/bridges/code.js`, the file
`/bridges/accent.txt` whose contents are not in the normal form NFC, another
file whose reading fails after five bytes, and the path functions of a Unix
system for the paths used here. -/
def fileSystem : funcs.FS :=
  { File := String × Option String
    IsAbs := fun path => path.front == '/'
    Join := fun dir path => dir ++ "/" ++ path
    Open := fun path =>
      if path = "/bridges/code.js" then .ok ("function handle() \x7b\x7d", none)
      else if path = "/bridges/accent.txt" then .ok (accentContents, none)
      else if path = "/bridges/broken.js" then .ok ("funct", some "input/output error")
      else .error ("open " ++ path ++ ": file does not exist")
    ReadAll := fun fd => fd
    NormalizeString := reference.NormalizeString }

end example_inputs

/-! ## Theorems -/

/-- C1: for each of the three addressable targets, every identifier, config
and destination value, the address is the destination of the target object
itself (the API version and kind of the target, the name `RFC1123Name(id)`)
when the destination is null, and the destination of the channel of the
messaging API, of kind `Channel` and with the name `RFC1123Name(id)`, when the
destination is not null. -/
theorem target_address_by_destination (sdk : Sdk) (id : String) (config dst : Value) :
    targets.AWSSNS.Address sdk id config dst =
      (if dst.IsNull then k8s.NewDestination sdk.APITargets "AWSSNSTarget" (sdk.RFC1123Name id)
        else k8s.NewDestination sdk.APIMessaging "Channel" (sdk.RFC1123Name id)) ∧
    targets.Datadog.Address sdk id config dst =
      (if dst.IsNull then k8s.NewDestination sdk.APITargets "DatadogTarget" (sdk.RFC1123Name id)
        else k8s.NewDestination sdk.APIMessaging "Channel" (sdk.RFC1123Name id)) ∧
    targets.Kafka.Address sdk id config dst =
      (if dst.IsNull then
          k8s.NewDestination sdk.APIEventingV1Alpha1 "KafkaSink" (sdk.RFC1123Name id)
        else k8s.NewDestination sdk.APIMessaging "Channel" (sdk.RFC1123Name id)) := by
  refine ⟨?_, ?_, ?_⟩ <;> rfl


/-- The address of a `function` transformer is decided by whether its runtime
is `js` and by nothing else of its inputs. -/
theorem function_address_eq (sdk : Sdk) (id : String) (config dst : Value) :
    transformers.Function.Address sdk id config dst =
      (transformers.Function.runtimeIsJS config).map (fun js =>
        if js then k8s.NewDestination sdk.APIMessaging "Channel" (sdk.RFC1123Name id)
        else k8s.NewDestination "flow.triggermesh.io/v1alpha1" "Function" (sdk.RFC1123Name id)) := by
  unfold transformers.Function.Address transformers.Function.runtimeIsJS
  cases config.GetAttr "runtime" with
  | none => rfl
  | some r =>
    simp only [Option.bind_eq_bind, Option.some_bind, Option.pure_def]
    cases r.AsString with
    | none => rfl
    | some str =>
      by_cases hjs : str = "js" <;> simp [hjs]

/-- An unknown value is not null. -/
theorem unknown_not_null (ty : Ty) : (Value.unknown ty).IsNull = false := rfl

/-- The address of a target is decided by whether the destination is null. -/
theorem target_address_congr (sdk : Sdk) (id : String) (cfg1 cfg2 dst1 dst2 : Value)
    (hdst : dst1.IsNull = dst2.IsNull) :
    targets.AWSSNS.Address sdk id cfg1 dst1 = targets.AWSSNS.Address sdk id cfg2 dst2 ∧
    targets.Datadog.Address sdk id cfg1 dst1 = targets.Datadog.Address sdk id cfg2 dst2 ∧
    targets.Kafka.Address sdk id cfg1 dst1 = targets.Kafka.Address sdk id cfg2 dst2 := by
  simp [targets.AWSSNS.Address, targets.Datadog.Address, targets.Kafka.Address, hdst]

/-- C2 (as stated, refuted): two configurations of a `function` transformer,
both valid for its schema, one with the runtime `js` and one with the runtime
`python`, give two different addresses for the same identifier and the same
null destination. -/
theorem address_stability_fails_for_function :
    hcldec.conforms transformers.Function.Spec example_inputs.functionJS = true ∧
    hcldec.conforms transformers.Function.Spec example_inputs.functionPython = true ∧
    (Value.null k8s.DestinationCty).IsNull = (Value.null k8s.DestinationCty).IsNull ∧
    Addressable.Address reference.sdk .Function "fn" example_inputs.functionJS
        (.null k8s.DestinationCty) =
      some (k8s.NewDestination "messaging.knative.dev/v1" "Channel" "fn") ∧
    Addressable.Address reference.sdk .Function "fn" example_inputs.functionPython
        (.null k8s.DestinationCty) =
      some (k8s.NewDestination "flow.triggermesh.io/v1alpha1" "Function" "fn") ∧
    Addressable.Address reference.sdk .Function "fn" example_inputs.functionJS
        (.null k8s.DestinationCty) ≠
      Addressable.Address reference.sdk .Function "fn" example_inputs.functionPython
        (.null k8s.DestinationCty) := by
  refine ⟨by decide, by decide, rfl, by rfl, by rfl, ?_⟩
  intro h
  have h1 : Addressable.Address reference.sdk .Function "fn" example_inputs.functionJS
      (.null k8s.DestinationCty) =
      some (k8s.NewDestination "messaging.knative.dev/v1" "Channel" "fn") := by rfl
  have h2 : Addressable.Address reference.sdk .Function "fn" example_inputs.functionPython
      (.null k8s.DestinationCty) =
      some (k8s.NewDestination "flow.triggermesh.io/v1alpha1" "Function" "fn") := by rfl
  rw [h1, h2] at h
  simp [k8s.NewDestination] at h

/-- C2 (amended): for every addressable component, identifier, two configs and
two destinations that are both null or both not null, the two addresses are
equal, provided that, for a `function` transformer, the two configs agree on
whether their runtime is `js`. -/
theorem address_stability (sdk : Sdk) (c : Addressable) (id : String)
    (cfg1 cfg2 dst1 dst2 : Value)
    (hdst : dst1.IsNull = dst2.IsNull)
    (hruntime : c = .Function →
      transformers.Function.runtimeIsJS cfg1 = transformers.Function.runtimeIsJS cfg2) :
    Addressable.Address sdk c id cfg1 dst1 = Addressable.Address sdk c id cfg2 dst2 := by
  obtain ⟨h1, h2, h3⟩ := target_address_congr sdk id cfg1 cfg2 dst1 dst2 hdst
  cases c with
  | AWSSNS => simp [Addressable.Address, h1]
  | Datadog => simp [Addressable.Address, h2]
  | KafkaTarget => simp [Addressable.Address, h3]
  | Bumblebee => rfl
  | Function =>
    simp only [Addressable.Address, function_address_eq, hruntime rfl]

/-- C2 (amended), at an input: two `js` functions that differ in their code
and in `public`, with a null and another null destination. -/
theorem address_stability_witness :
    (Value.null k8s.DestinationCty).IsNull = (Value.null Ty.dynamic).IsNull ∧
    Addressable.Address reference.sdk .Function "fn" example_inputs.functionJS
        (.null k8s.DestinationCty) =
      Addressable.Address reference.sdk .Function "fn" example_inputs.functionJSPublic
        (.null Ty.dynamic) :=
  ⟨rfl, address_stability reference.sdk .Function "fn" example_inputs.functionJS
    example_inputs.functionJSPublic _ _ rfl (fun _ => rfl)⟩

/-- C3: for every addressable component, identifier and config, the address
computed with the placeholder of the safe decoder, the unknown value of the
destination type, is the address computed with any known destination that is
not null. -/
theorem placeholder_destination_same_address (sdk : Sdk) (c : Addressable) (id : String)
    (cfg d : Value) (_hknown : d.IsKnown = true) (hnull : d.IsNull = false) :
    Addressable.Address sdk c id cfg (.unknown k8s.DestinationCty) =
      Addressable.Address sdk c id cfg d := by
  cases c <;>
    simp [Addressable.Address, targets.AWSSNS.Address, targets.Datadog.Address,
      targets.Kafka.Address, transformers.Bumblebee.Address, function_address_eq, hnull,
      unknown_not_null]

/-- C3, at an input: the `aws_sns` target `sns` before a known destination. -/
theorem placeholder_destination_same_address_witness :
    example_inputs.someDestination.IsKnown = true ∧
    example_inputs.someDestination.IsNull = false ∧
    Addressable.Address reference.sdk .AWSSNS "sns" example_inputs.awsSNS
        (.unknown k8s.DestinationCty) =
      Addressable.Address reference.sdk .AWSSNS "sns" example_inputs.awsSNS
        example_inputs.someDestination :=
  ⟨rfl, rfl, placeholder_destination_same_address reference.sdk .AWSSNS "sns"
    example_inputs.awsSNS example_inputs.someDestination rfl rfl⟩

/-! ### Maps and nested fields -/

/-- Reading a key that was just put. -/
theorem Obj.get_put_same (o : Obj) (k : String) (v : Any) : (o.put k v).get k = some v := by
  induction o with
  | nil => simp [Obj.put, Obj.get]
  | cons kv rest ih =>
    obtain ⟨k1, v1⟩ := kv
    by_cases h : k1 = k
    · simp [Obj.put, Obj.get, h]
    · simp [Obj.put, Obj.get, h, ih]

/-- Reading another key than the one that was just put. -/
theorem Obj.get_put_other (o : Obj) (k k1 : String) (v : Any) (h : k1 ≠ k) :
    (o.put k v).get k1 = o.get k1 := by
  induction o with
  | nil => simp [Obj.put, Obj.get, h.symm]
  | cons kv rest ih =>
    obtain ⟨k2, v2⟩ := kv
    by_cases h2 : k2 = k
    · subst h2
      simp [Obj.put, Obj.get, h.symm]
    · by_cases h3 : k2 = k1
      · subst h3
        simp [Obj.put, Obj.get, h2]
      · simp [Obj.put, Obj.get, h2, h3, ih]

/-- Setting a nested field changes the map at the first key of the path only. -/
theorem unstructured.SetNestedField_get_other (o o1 : Obj) (v : Any) (f : String)
    (rest : List String) (k : String) (hk : k ≠ f)
    (h : unstructured.SetNestedField o v (f :: rest) = some o1) : o1.get k = o.get k := by
  cases rest with
  | nil =>
    simp only [unstructured.SetNestedField, Option.some.injEq] at h
    subst h
    exact Obj.get_put_other o f k v hk
  | cons g more =>
    simp only [unstructured.SetNestedField] at h
    split at h
    · simp only [Option.map_eq_some'] at h
      obtain ⟨m1, _, rfl⟩ := h
      exact Obj.get_put_other o f k _ hk
    · simp at h
    · simp only [Option.map_eq_some'] at h
      obtain ⟨m1, _, rfl⟩ := h
      exact Obj.get_put_other o f k _ hk

/-- After a nested field was set, it is read back. -/
theorem unstructured.NestedField_SetNestedField (o o1 : Obj) (v : Any) (f : String)
    (rest : List String) (h : unstructured.SetNestedField o v (f :: rest) = some o1) :
    unstructured.NestedField o1 (f :: rest) = some v := by
  induction rest generalizing o o1 f with
  | nil =>
    simp only [unstructured.SetNestedField, Option.some.injEq] at h
    subst h
    simp [unstructured.NestedField, Obj.get_put_same]
  | cons g more ih =>
    simp only [unstructured.SetNestedField] at h
    split at h
    · next m hm =>
      simp only [Option.map_eq_some'] at h
      obtain ⟨m1, hm1, rfl⟩ := h
      simp [unstructured.NestedField, Obj.get_put_same, ih m m1 g hm1]
    · simp at h
    · simp only [Option.map_eq_some'] at h
      obtain ⟨m1, hm1, rfl⟩ := h
      simp [unstructured.NestedField, Obj.get_put_same, ih [] m1 g hm1]

/-- A call that ignores the error leaves every key other than the first one
of the path as it was. -/
theorem unstructured.setNested_get_other (o : Obj) (v : Any) (f : String)
    (rest : List String) (k : String) (hk : k ≠ f) :
    (unstructured.setNested o v (f :: rest)).get k = o.get k := by
  unfold unstructured.setNested
  cases h : unstructured.SetNestedField o v (f :: rest) with
  | none => rfl
  | some o1 => exact unstructured.SetNestedField_get_other o o1 v f rest k hk h

/-! ### The shape of valid attribute values -/

/-- A concrete value of type string is a string. -/
theorem Value.str_of_hasType_string (v : Value) (ht : v.hasType .string = true)
    (hc : v.isConcrete = true) : ∃ s, v = .str s := by
  cases v <;> simp_all [Value.hasType, Value.isConcrete]

/-- A concrete value whose type is bool is a boolean. -/
theorem Value.bool_of_typeOf_bool (v : Value) (ht : v.typeOf.Equals .bool = true)
    (hc : v.isConcrete = true) : ∃ b, v = .bool b := by
  cases v <;> simp_all [Value.typeOf, Value.isConcrete, Ty.Equals]

/-- A concrete value whose type is string is a string. -/
theorem Value.str_of_typeOf_string (v : Value) (ht : v.typeOf.Equals .string = true)
    (hc : v.isConcrete = true) : ∃ s, v = .str s := by
  cases v <;> simp_all [Value.typeOf, Value.isConcrete, Ty.Equals]

/-- The elements of a concrete list of strings are strings. -/
theorem sources.stringElements_of_hasTypeAll (vs : List Value)
    (ht : Value.hasTypeAll .string vs = true) (hc : Value.allConcrete vs = true) :
    ∃ strs, sources.stringElements vs = some strs := by
  induction vs with
  | nil => exact ⟨[], rfl⟩
  | cons v rest ih =>
    simp only [Value.hasTypeAll, Value.allConcrete, Bool.and_eq_true] at ht hc
    obtain ⟨s, rfl⟩ := Value.str_of_hasType_string v ht.1 hc.1
    obtain ⟨strs, hstrs⟩ := ih ht.2 hc.2
    exact ⟨Any.str s :: strs, by simp [sources.stringElements, Value.AsString, hstrs]⟩

/-- A concrete value of type list of strings is a list of strings. -/
theorem Value.list_of_hasType_list_string (v : Value)
    (ht : v.hasType (.list .string) = true) (hc : v.isConcrete = true) :
    ∃ e vs strs, v = .list e vs ∧ sources.stringElements vs = some strs := by
  cases v with
  | list e vs =>
    simp only [Value.hasType, Value.isConcrete, Bool.and_eq_true] at ht hc
    obtain ⟨strs, hstrs⟩ := sources.stringElements_of_hasTypeAll vs ht.2 hc
    exact ⟨e, vs, strs, rfl, hstrs⟩
  | _ => simp_all [Value.hasType, Value.isConcrete]

/-- A concrete value of the object-reference type is an object of three
strings. -/
theorem Value.objectReference_of_hasType (v : Value)
    (ht : v.hasType k8s.ObjectReferenceCty = true) (hc : v.isConcrete = true) :
    ∃ a k n, v = .object [("apiVersion", .str a), ("kind", .str k), ("name", .str n)] := by
  cases v with
  | object attrs =>
    simp only [k8s.ObjectReferenceCty, Value.hasType] at ht
    match attrs, ht, hc with
    | [(n1, v1), (n2, v2), (n3, v3)], ht, hc =>
      simp only [Value.hasTypeAttrs, Bool.and_eq_true, beq_iff_eq] at ht
      simp only [Value.isConcrete, Value.attrsConcrete, Bool.and_eq_true] at hc
      obtain ⟨⟨h1, t1⟩, ⟨h2, t2⟩, ⟨h3, t3⟩, -⟩ := ht
      obtain ⟨a, rfl⟩ := Value.str_of_hasType_string v1 t1 hc.1
      obtain ⟨k, rfl⟩ := Value.str_of_hasType_string v2 t2 hc.2.1
      obtain ⟨n, rfl⟩ := Value.str_of_hasType_string v3 t3 hc.2.2.1
      exact ⟨a, k, n, by rw [← h1, ← h2, ← h3]⟩
    | [], ht, _ => simp [Value.hasTypeAttrs] at ht
    | [_], ht, _ => simp [Value.hasTypeAttrs] at ht
    | [_, _], ht, _ => simp [Value.hasTypeAttrs] at ht
    | _ :: _ :: _ :: _ :: _, ht, _ => simp [Value.hasTypeAttrs] at ht
  | _ => simp_all [Value.hasType, Value.isConcrete, k8s.ObjectReferenceCty, Ty.Equals]

/-- A concrete value that `IsObjectReference` accepts is an object of three
strings. -/
theorem Value.objectReference_of_IsObjectReference (v : Value)
    (ht : k8s.IsObjectReference v = true) (hc : v.isConcrete = true) :
    ∃ a k n, v = .object [("apiVersion", .str a), ("kind", .str k), ("name", .str n)] := by
  cases v with
  | object attrs =>
    simp only [k8s.IsObjectReference, k8s.ObjectReferenceCty, Value.typeOf, Ty.Equals] at ht
    match attrs, ht, hc with
    | [(n1, v1), (n2, v2), (n3, v3)], ht, hc =>
      simp only [Value.attrTypes, Ty.EqualsAttrs, Bool.and_eq_true, beq_iff_eq] at ht
      simp only [Value.isConcrete, Value.attrsConcrete, Bool.and_eq_true] at hc
      obtain ⟨⟨h1, t1⟩, ⟨h2, t2⟩, ⟨h3, t3⟩, -⟩ := ht
      obtain ⟨a, rfl⟩ := Value.str_of_typeOf_string v1 t1 hc.1
      obtain ⟨k, rfl⟩ := Value.str_of_typeOf_string v2 t2 hc.2.1
      obtain ⟨n, rfl⟩ := Value.str_of_typeOf_string v3 t3 hc.2.2.1
      exact ⟨a, k, n, by rw [h1, h2, h3]⟩
    | [], ht, _ => simp [Value.attrTypes, Ty.EqualsAttrs] at ht
    | [_], ht, _ => simp [Value.attrTypes, Ty.EqualsAttrs] at ht
    | [_, _], ht, _ => simp [Value.attrTypes, Ty.EqualsAttrs] at ht
    | _ :: _ :: _ :: _ :: _, ht, _ => simp [Value.attrTypes, Ty.EqualsAttrs] at ht
  | _ => simp_all [Value.typeOf, Value.isConcrete, k8s.IsObjectReference, k8s.ObjectReferenceCty,
      Ty.Equals]

/-! ### Manifests under construction -/

/-- A manifest is a step away from itself. -/
theorem Obj.specStep_refl (o : Obj) : Obj.specStep o o :=
  ⟨fun _ _ => rfl, fun h => h⟩

/-- Steps compose. -/
theorem Obj.specStep_trans (o o1 o2 : Obj) (h1 : Obj.specStep o o1) (h2 : Obj.specStep o1 o2) :
    Obj.specStep o o2 :=
  ⟨fun k hk => (h2.1 k hk).trans (h1.1 k hk), fun h => h2.2 (h1.2 h)⟩

/-- Setting a field below `spec`, other than `spec.sink`, is a step. -/
theorem Obj.specStep_setNested (o : Obj) (v : Any) (f : String) (rest : List String)
    (hf : f ≠ "sink") : Obj.specStep o (unstructured.setNested o v ("spec" :: f :: rest)) := by
  refine ⟨fun k hk => unstructured.setNested_get_other o v "spec" (f :: rest) k hk, ?_⟩
  intro hfree
  unfold unstructured.setNested
  cases h : unstructured.SetNestedField o v ("spec" :: f :: rest) with
  | none => exact hfree
  | some o1 =>
    simp only [Option.getD_some]
    simp only [unstructured.SetNestedField] at h
    unfold Obj.sinkFree at hfree ⊢
    split at h
    · next m hm =>
      simp only [Option.map_eq_some'] at h
      obtain ⟨m1, hm1, rfl⟩ := h
      rw [hm] at hfree
      simp only [Obj.get_put_same]
      rw [unstructured.SetNestedField_get_other m m1 v f rest "sink" (Ne.symm hf) hm1]
      exact hfree
    · simp at h
    · simp only [Option.map_eq_some'] at h
      obtain ⟨m1, hm1, rfl⟩ := h
      simp only [Obj.get_put_same]
      rw [unstructured.SetNestedField_get_other [] m1 v f rest "sink" (Ne.symm hf) hm1]
      rfl

/-- Setting `spec.sink.ref` on a manifest that has nothing at `spec.sink`
succeeds: the value is read back, and nothing outside of `spec` changes. -/
theorem Obj.sink_setNested (o : Obj) (v : Any) (hfree : o.sinkFree = true) :
    unstructured.NestedField (unstructured.setNested o v ["spec", "sink", "ref"])
      ["spec", "sink", "ref"] = some v := by
  have hset : ∃ o1, unstructured.SetNestedField o v ["spec", "sink", "ref"] = some o1 := by
    unfold Obj.sinkFree at hfree
    simp only [unstructured.SetNestedField]
    split at hfree
    · next hspec => simp [hspec, Obj.get]
    · next sp hspec =>
      have hs : Obj.get sp "sink" = none := by
        cases hsink : Obj.get sp "sink" with
        | none => rfl
        | some x => simp [hsink] at hfree
      simp [hspec, hs, Obj.get]
    · simp at hfree
  obtain ⟨o1, ho1⟩ := hset
  unfold unstructured.setNested
  rw [ho1]
  exact unstructured.NestedField_SetNestedField o o1 v "spec" ["sink", "ref"] ho1

/-- The name, kind and API version of a manifest are read outside of `spec`. -/
theorem Obj.specStep_getters (o o1 : Obj) (h : Obj.specStep o o1) :
    unstructured.GetName o1 = unstructured.GetName o ∧
    unstructured.GetKind o1 = unstructured.GetKind o ∧
    unstructured.GetAPIVersion o1 = unstructured.GetAPIVersion o := by
  have hm := h.1 "metadata" (by decide)
  have hk := h.1 "kind" (by decide)
  have ha := h.1 "apiVersion" (by decide)
  simp [unstructured.GetName, unstructured.GetKind, unstructured.GetAPIVersion,
    unstructured.getNestedString, unstructured.NestedField, hm, hk, ha]

/-- A new object has the API version, the kind and the name it was given, and
no `spec`. -/
theorem unstructured.new_object (apiVersion kind name : String) :
    unstructured.GetAPIVersion
      (unstructured.SetName (unstructured.SetKind (unstructured.SetAPIVersion [] apiVersion) kind)
        name) = apiVersion ∧
    unstructured.GetKind
      (unstructured.SetName (unstructured.SetKind (unstructured.SetAPIVersion [] apiVersion) kind)
        name) = kind ∧
    unstructured.GetName
      (unstructured.SetName (unstructured.SetKind (unstructured.SetAPIVersion [] apiVersion) kind)
        name) = name ∧
    Obj.sinkFree
      (unstructured.SetName (unstructured.SetKind (unstructured.SetAPIVersion [] apiVersion) kind)
        name) = true := by
  by_cases hn : name.length = 0
  · have hname : name = "" := by
      cases name with
      | mk cs => cases cs with
        | nil => rfl
        | cons c rest => simp [String.length] at hn
    subst hname
    simp [unstructured.SetName, unstructured.SetKind, unstructured.SetAPIVersion,
      unstructured.setNested, unstructured.SetNestedField, unstructured.RemoveNestedField,
      unstructured.GetAPIVersion, unstructured.GetKind, unstructured.GetName,
      unstructured.getNestedString, unstructured.NestedField, Obj.put, Obj.get, Obj.sinkFree]
  · simp [unstructured.SetName, unstructured.SetKind, unstructured.SetAPIVersion,
      unstructured.setNested, unstructured.SetNestedField, unstructured.RemoveNestedField,
      unstructured.GetAPIVersion, unstructured.GetKind, unstructured.GetName,
      unstructured.getNestedString, unstructured.NestedField, Obj.put, Obj.get, Obj.sinkFree, hn]

/-! ### The `kafka` source -/

/-- What a valid configuration of the `kafka` source is made of. -/
theorem sources.Kafka.conforms_inv (cfg : Value)
    (h : hcldec.conforms sources.Kafka.Spec cfg = true) :
    ∃ fields cg bs tp sa tls, cfg = .object fields ∧
      Value.lookupAttr fields "consumer_group" = some cg ∧
      (cg.IsNull = true ∨ ∃ s, cg = .str s) ∧
      Value.lookupAttr fields "bootstrap_servers" = some bs ∧
      (∃ e vs strs, bs = .list e vs ∧ sources.stringElements vs = some strs) ∧
      Value.lookupAttr fields "topics" = some tp ∧
      (∃ e vs strs, tp = .list e vs ∧ sources.stringElements vs = some strs) ∧
      Value.lookupAttr fields "sasl_auth" = some sa ∧
      (sa.IsNull = true ∨
        ∃ a k n, sa = .object [("apiVersion", .str a), ("kind", .str k), ("name", .str n)]) ∧
      Value.lookupAttr fields "tls" = some tls ∧
      (tls.IsNull = true ∨
        (∃ a k n, tls = .object [("apiVersion", .str a), ("kind", .str k), ("name", .str n)]) ∨
        ∃ b, tls = .bool b) := by
  cases cfg with
  | object fields =>
    simp only [sources.Kafka.Spec, hcldec.conforms, hcldec.conformsAttrs, Bool.and_eq_true] at h
    obtain ⟨h1, h2, h3, h4, h5, -⟩ := h
    cases hcg : Value.lookupAttr fields "consumer_group" with
    | none => simp [hcg] at h1
    | some cg =>
    cases hbs : Value.lookupAttr fields "bootstrap_servers" with
    | none => simp [hbs] at h2
    | some bs =>
    cases htp : Value.lookupAttr fields "topics" with
    | none => simp [htp] at h3
    | some tp =>
    cases hsa : Value.lookupAttr fields "sasl_auth" with
    | none => simp [hsa] at h4
    | some sa =>
    cases htls : Value.lookupAttr fields "tls" with
    | none => simp [htls] at h5
    | some tls =>
    simp only [hcg, hbs, htp, hsa, htls, hcldec.conforms, Bool.and_eq_true, Bool.or_eq_true,
      Bool.not_true, Bool.not_false, Bool.false_and, Bool.true_and, Bool.false_eq_true,
      or_false, Bool.not_eq_true'] at h1 h2 h3 h4 h5
    refine ⟨fields, cg, bs, tp, sa, tls, rfl, hcg, ?_, hbs, ?_, htp, ?_, hsa, ?_, htls, ?_⟩
    · rcases h1.2 with hc | hn
      · exact Or.inr (Value.str_of_hasType_string cg h1.1 hc)
      · exact Or.inl hn
    · exact Value.list_of_hasType_list_string bs h2.1 h2.2
    · exact Value.list_of_hasType_list_string tp h3.1 h3.2
    · rcases h4.2 with hc | hn
      · exact Or.inr (Value.objectReference_of_hasType sa h4.1 hc)
      · exact Or.inl hn
    · obtain ⟨⟨-, hcn⟩, hv⟩ := h5
      rcases hv with hn | hv
      · exact Or.inl hn
      · rcases hcn with hc | hn
        · have hor : k8s.IsObjectReference tls = true ∨ tls.typeOf.Equals Ty.bool = true := by
            by_contra hne
            simp only [not_or, Bool.not_eq_true] at hne
            simp [sources.validateKafkaAttrTLS, hne.1, hne.2, hcl.Diagnostics.Append,
              hcl.Diagnostics.HasErrors] at hv
          rcases hor with ho | hb
          · exact Or.inr (Or.inl (Value.objectReference_of_IsObjectReference tls ho hc))
          · exact Or.inr (Or.inr (Value.bool_of_typeOf_bool tls hb hc))
        · exact Or.inl hn
  | _ => simp [hcldec.conforms, sources.Kafka.Spec] at h

/-- The `consumer_group` block returns, a step away. -/
theorem sources.Kafka.setConsumerGroup_step (s : Obj) (fields : List (String × Value))
    (cg : Value) (hcg : Value.lookupAttr fields "consumer_group" = some cg)
    (hshape : cg.IsNull = true ∨ ∃ str, cg = .str str) :
    ∃ s1, sources.Kafka.setConsumerGroup s (.object fields) = some s1 ∧ Obj.specStep s s1 := by
  rcases hshape with hn | ⟨str, rfl⟩
  · exact ⟨s, by simp [sources.Kafka.setConsumerGroup, Value.GetAttr, hcg, hn],
      Obj.specStep_refl s⟩
  · exact ⟨unstructured.setNested s (.str str) ["spec", "consumerGroup"],
      by simp [sources.Kafka.setConsumerGroup, Value.GetAttr, hcg, Value.IsNull,
        Value.AsString], Obj.specStep_setNested s _ "consumerGroup" [] (by decide)⟩

/-- The block of a list of strings returns, a step away. -/
theorem sources.Kafka.setStrings_step (s : Obj) (fields : List (String × Value))
    (attr field : String) (v : Value) (hv : Value.lookupAttr fields attr = some v)
    (hshape : ∃ e vs strs, v = .list e vs ∧ sources.stringElements vs = some strs)
    (hfield : field ≠ "sink") :
    ∃ s1, sources.Kafka.setStrings s (.object fields) attr field = some s1 ∧
      Obj.specStep s s1 := by
  obtain ⟨e, vs, strs, rfl, hstrs⟩ := hshape
  exact ⟨unstructured.setNested s (.slice strs) ["spec", field],
    by simp [sources.Kafka.setStrings, Value.GetAttr, hv, Value.Elements, hstrs],
    Obj.specStep_setNested s _ field [] hfield⟩

/-- The `sasl_auth` block returns, a step away. -/
theorem sources.Kafka.setSASL_step (sdk : Sdk) (s : Obj) (fields : List (String × Value))
    (sa : Value) (hsa : Value.lookupAttr fields "sasl_auth" = some sa)
    (hshape : sa.IsNull = true ∨
      ∃ a k n, sa = .object [("apiVersion", .str a), ("kind", .str k), ("name", .str n)]) :
    ∃ s1, sources.Kafka.setSASL sdk s (.object fields) = some s1 ∧ Obj.specStep s s1 := by
  rcases hshape with hn | ⟨a, k, n, rfl⟩
  · exact ⟨s, by simp [sources.Kafka.setSASL, Value.GetAttr, hsa, hn], Obj.specStep_refl s⟩
  · refine ⟨_, by simp [sources.Kafka.setSASL, Value.GetAttr, hsa, Value.IsNull,
      Value.AsString, Value.lookupAttr]; rfl, ?_⟩
    refine Obj.specStep_trans _ _ _ (Obj.specStep_trans _ _ _ (Obj.specStep_trans _ _ _
      (Obj.specStep_setNested s _ "net" _ (by decide))
      (Obj.specStep_setNested _ _ "net" _ (by decide)))
      (Obj.specStep_setNested _ _ "net" _ (by decide)))
      (Obj.specStep_setNested _ _ "net" _ (by decide))

/-- The `tls` block returns, a step away. -/
theorem sources.Kafka.setTLS_step (sdk : Sdk) (s : Obj) (fields : List (String × Value))
    (tls : Value) (htls : Value.lookupAttr fields "tls" = some tls)
    (hshape : tls.IsNull = true ∨
      (∃ a k n, tls = .object [("apiVersion", .str a), ("kind", .str k), ("name", .str n)]) ∨
      ∃ b, tls = .bool b) :
    ∃ s1, sources.Kafka.setTLS sdk s (.object fields) = some s1 ∧ Obj.specStep s s1 := by
  rcases hshape with hn | ⟨a, k, n, rfl⟩ | ⟨b, rfl⟩
  · exact ⟨s, by simp [sources.Kafka.setTLS, Value.GetAttr, htls, hn], Obj.specStep_refl s⟩
  · have href : k8s.IsObjectReference
        (.object [("apiVersion", .str a), ("kind", .str k), ("name", .str n)]) = true := by
      simp [k8s.IsObjectReference, k8s.ObjectReferenceCty, Value.typeOf, Value.attrTypes,
        Ty.Equals, Ty.EqualsAttrs]
    refine ⟨_, by simp [sources.Kafka.setTLS, Value.GetAttr, htls, Value.IsNull, href,
      Value.AsString, Value.lookupAttr]; rfl, ?_⟩
    refine Obj.specStep_trans _ _ _ (Obj.specStep_trans _ _ _ (Obj.specStep_trans _ _ _
      (Obj.specStep_trans _ _ _ (Obj.specStep_trans _ _ _ (Obj.specStep_trans _ _ _
      (Obj.specStep_setNested s _ "net" _ (by decide))
      (Obj.specStep_setNested _ _ "net" _ (by decide)))
      (Obj.specStep_setNested _ _ "net" _ (by decide)))
      (Obj.specStep_setNested _ _ "net" _ (by decide)))
      (Obj.specStep_setNested _ _ "net" _ (by decide)))
      (Obj.specStep_setNested _ _ "net" _ (by decide)))
      (Obj.specStep_setNested _ _ "net" _ (by decide))
  · have href : k8s.IsObjectReference (.bool b) = false := by
      simp [k8s.IsObjectReference, k8s.ObjectReferenceCty, Value.typeOf, Ty.Equals]
    cases b with
    | true =>
      exact ⟨unstructured.setNested s (.bool true) ["spec", "net", "tls", "enable"],
        by simp [sources.Kafka.setTLS, Value.GetAttr, htls, Value.IsNull, href, Value.True],
        Obj.specStep_setNested s _ "net" _ (by decide)⟩
    | false =>
      exact ⟨s, by simp [sources.Kafka.setTLS, Value.GetAttr, htls, Value.IsNull, href,
        Value.True], Obj.specStep_refl s⟩

/-- The sink of the address of an `aws_sns` target that forwards nothing. -/
theorem sources.sinkOf_sns_address (sdk : Sdk) (t : String) (tcfg : Value) (ty : Ty) :
    sources.sinkOf (targets.AWSSNS.Address sdk t tcfg (.null ty)) =
      some [("apiVersion", .str sdk.APITargets), ("kind", .str "AWSSNSTarget"),
        ("name", .str (sdk.RFC1123Name t))] := by
  simp [sources.sinkOf, targets.AWSSNS.Address, Value.IsNull, k8s.NewDestination, Value.GetAttr,
    Value.lookupAttr, Value.AsString]

/-- C4: for every source identifier, every valid config of the `kafka` source,
every target identifier and target config, the manifests of the `kafka`
source for the address of the `aws_sns` target with a null destination are
exactly one manifest, of kind `KafkaSource`, whose `spec.sink.ref` is made of
the API version, the kind `AWSSNSTarget` and the name of that address, the
name being `RFC1123Name` of the target identifier. -/
theorem kafka_source_sinks_to_sns_address (sdk : Sdk) (s t : String) (cfg tcfg : Value)
    (ty : Ty) (hvalid : hcldec.conforms sources.Kafka.Spec cfg = true) :
    ∃ m, sources.Kafka.Manifests sdk s cfg (targets.AWSSNS.Address sdk t tcfg (.null ty)) =
        some [m] ∧
      unstructured.GetKind m = "KafkaSource" ∧
      unstructured.NestedField m ["spec", "sink", "ref"] =
        some (.map [("apiVersion", .str sdk.APITargets), ("kind", .str "AWSSNSTarget"),
          ("name", .str (sdk.RFC1123Name t))]) ∧
      (targets.AWSSNS.Address sdk t tcfg (.null ty)).GetAttr "ref" =
        some (.object [("apiVersion", .str sdk.APITargets), ("kind", .str "AWSSNSTarget"),
          ("name", .str (sdk.RFC1123Name t))]) := by
  obtain ⟨fields, cg, bs, tp, sa, tls, rfl, hcg, hcg1, hbs, hbs1, htp, htp1, hsa, hsa1, htls,
    htls1⟩ := sources.Kafka.conforms_inv cfg hvalid
  obtain ⟨-, hkind, -, hfree⟩ :=
    unstructured.new_object "sources.knative.dev/v1beta1" "KafkaSource" (sdk.RFC1123Name s)
  obtain ⟨s1, e1, st1⟩ := sources.Kafka.setConsumerGroup_step
    (unstructured.SetName (unstructured.SetKind
      (unstructured.SetAPIVersion [] "sources.knative.dev/v1beta1") "KafkaSource")
      (sdk.RFC1123Name s)) fields cg hcg hcg1
  obtain ⟨s2, e2, st2⟩ := sources.Kafka.setStrings_step s1 fields "bootstrap_servers"
    "bootstrapServers" bs hbs hbs1 (by decide)
  obtain ⟨s3, e3, st3⟩ := sources.Kafka.setStrings_step s2 fields "topics" "topics" tp htp htp1
    (by decide)
  obtain ⟨s4, e4, st4⟩ := sources.Kafka.setSASL_step sdk s3 fields sa hsa hsa1
  obtain ⟨s5, e5, st5⟩ := sources.Kafka.setTLS_step sdk s4 fields tls htls htls1
  have st := Obj.specStep_trans _ _ _ (Obj.specStep_trans _ _ _ (Obj.specStep_trans _ _ _
    (Obj.specStep_trans _ _ _ st1 st2) st3) st4) st5
  refine ⟨unstructured.setNested s5 (.map [("apiVersion", .str sdk.APITargets),
    ("kind", .str "AWSSNSTarget"), ("name", .str (sdk.RFC1123Name t))]) ["spec", "sink", "ref"],
    ?_, ?_, ?_, ?_⟩
  · simp [sources.Kafka.Manifests, e1, e2, e3, e4, e5, sources.sinkOf_sns_address]
  · have hk : unstructured.GetKind s5 = "KafkaSource" := by
      rw [(Obj.specStep_getters _ _ st).2.1]; exact hkind
    unfold unstructured.GetKind unstructured.getNestedString unstructured.NestedField at hk ⊢
    rw [unstructured.setNested_get_other s5 _ "spec" _ "kind" (by decide)]
    exact hk
  · exact Obj.sink_setNested s5 _ (st.2 hfree)
  · simp [targets.AWSSNS.Address, Value.IsNull, k8s.NewDestination, Value.GetAttr,
      Value.lookupAttr]

/-- C4, at an input: the `kafka` source of the first end-to-end scenario before
the `aws_sns` target `sns`. -/
theorem kafka_source_sinks_to_sns_address_witness :
    hcldec.conforms sources.Kafka.Spec example_inputs.kafkaSource = true ∧
    ∃ m, sources.Kafka.Manifests reference.sdk "my_kafka" example_inputs.kafkaSource
        (targets.AWSSNS.Address reference.sdk "SNS_1" example_inputs.awsSNS
          (.null k8s.DestinationCty)) = some [m] ∧
      unstructured.GetKind m = "KafkaSource" ∧
      unstructured.NestedField m ["spec", "sink", "ref"] =
        some (.map [("apiVersion", .str reference.sdk.APITargets), ("kind", .str "AWSSNSTarget"),
          ("name", .str (reference.sdk.RFC1123Name "SNS_1"))]) ∧
      (targets.AWSSNS.Address reference.sdk "SNS_1" example_inputs.awsSNS
          (.null k8s.DestinationCty)).GetAttr "ref" =
        some (.object [("apiVersion", .str reference.sdk.APITargets),
          ("kind", .str "AWSSNSTarget"), ("name", .str (reference.sdk.RFC1123Name "SNS_1"))]) :=
  ⟨by decide, kafka_source_sinks_to_sns_address reference.sdk "my_kafka" "SNS_1"
    example_inputs.kafkaSource example_inputs.awsSNS k8s.DestinationCty (by decide)⟩

/-- C5 (the code at the failing input): for the identifier `Azure_Logs`, a
valid config and a destination, the one manifest of the `azure_activity_logs`
source is named `Azure_Logs`, the raw identifier, which is not a name in the
sense of RFC 1123 and is not the normalised identifier `azure-logs`, while the
`kafka` source names its manifest `azure-logs` for the same identifier. -/
theorem azure_activity_logs_keeps_raw_identifier :
    hcldec.conforms sources.AzureActivityLogs.Spec example_inputs.azureActivityLogs = true ∧
    (sources.AzureActivityLogs.Manifests reference.sdk "Azure_Logs"
      example_inputs.azureActivityLogs example_inputs.someDestination).map
        (fun ms => ms.map unstructured.GetName) = some ["Azure_Logs"] ∧
    reference.isRFC1123Name "Azure_Logs" = false ∧
    reference.sdk.RFC1123Name "Azure_Logs" = "azure-logs" ∧
    (sources.Kafka.Manifests reference.sdk "Azure_Logs"
      example_inputs.kafkaSource example_inputs.someDestination).map
        (fun ms => ms.map unstructured.GetName) = some ["azure-logs"] := by
  refine ⟨by decide, by decide, by decide, by decide, by decide⟩

/-! ### The targets -/

/-- A required attribute of type string is a string. -/
theorem hcldec.required_string (name : String) (v : Value)
    (h : hcldec.conforms (.AttrSpec name .string true) v = true) : ∃ s, v = .str s := by
  simp only [hcldec.conforms, Bool.and_eq_true, Bool.or_eq_true, Bool.not_true, Bool.false_and,
    Bool.false_eq_true, or_false] at h
  exact Value.str_of_hasType_string v h.1 h.2

/-- An attribute of type string that is not required is a string or null. -/
theorem hcldec.optional_string (name : String) (v : Value)
    (h : hcldec.conforms (.AttrSpec name .string false) v = true) :
    v.IsNull = true ∨ ∃ s, v = .str s := by
  simp only [hcldec.conforms, Bool.and_eq_true, Bool.or_eq_true, Bool.not_false,
    Bool.true_and] at h
  rcases h.2 with hc | hn
  · exact Or.inr (Value.str_of_hasType_string v h.1 hc)
  · exact Or.inl hn

/-- A required attribute of the object-reference type is an object of three
strings. -/
theorem hcldec.required_objectReference (name : String) (v : Value)
    (h : hcldec.conforms (.AttrSpec name k8s.ObjectReferenceCty true) v = true) :
    ∃ a k n, v = .object [("apiVersion", .str a), ("kind", .str k), ("name", .str n)] := by
  simp only [hcldec.conforms, Bool.and_eq_true, Bool.or_eq_true, Bool.not_true, Bool.false_and,
    Bool.false_eq_true, or_false] at h
  exact Value.objectReference_of_hasType v h.1 h.2

/-- The manifests of the `aws_sns` target for a valid config. -/
theorem aws_sns_manifests_eq (sdk : Sdk) (id : String) (config : Value)
    (glb : sdk.Accessor) (hvalid : hcldec.conforms targets.AWSSNS.Spec config = true) :
    ∃ primary, Obj.specStep (k8s.NewObject sdk.APITargets "AWSSNSTarget" (sdk.RFC1123Name id))
        primary ∧
      ∀ dst, targets.AWSSNS.Manifests sdk id config dst glb =
        some (if dst.IsNull then [primary]
          else [primary, k8s.NewChannel sdk (sdk.RFC1123Name id),
            sdk.NewSubscription (sdk.RFC1123Name id) (sdk.RFC1123Name id)
              (k8s.NewDestination sdk.APITargets "AWSSNSTarget" (sdk.RFC1123Name id))
              (sdk.AppendDeliverySubscriptionOptions [sdk.ReplyDest dst] glb)]) := by
  cases config with
  | object fields =>
    simp only [targets.AWSSNS.Spec, hcldec.conforms, hcldec.conformsAttrs,
      Bool.and_eq_true] at hvalid
    obtain ⟨h1, h2, -⟩ := hvalid
    cases harn : Value.lookupAttr fields "arn" with
    | none => simp [harn] at h1
    | some arn =>
    cases hcr : Value.lookupAttr fields "credentials" with
    | none => simp [hcr] at h2
    | some creds =>
    simp only [harn] at h1
    simp only [hcr] at h2
    obtain ⟨a, rfl⟩ := hcldec.required_string "arn" arn h1
    obtain ⟨ca, ck, cn, rfl⟩ := hcldec.required_objectReference "credentials" creds h2
    refine ⟨k8s.Object.SetNestedField (k8s.Object.SetNestedField (k8s.Object.SetNestedField
      (k8s.NewObject sdk.APITargets "AWSSNSTarget" (sdk.RFC1123Name id)) (.str a) ["spec", "arn"])
      (.map (sdk.SecretKeyRefsAWS cn).1) ["spec", "awsApiKey", "secretKeyRef"])
      (.map (sdk.SecretKeyRefsAWS cn).2) ["spec", "awsApiSecret", "secretKeyRef"], ?_, ?_⟩
    rotate_left
    · intro dst
      cases hd : dst.IsNull <;>
        simp [targets.AWSSNS.Manifests, Value.GetAttr, harn, hcr, Value.AsString,
          Value.lookupAttr, hd]
    · exact Obj.specStep_trans _ _ _ (Obj.specStep_trans _ _ _
        (Obj.specStep_setNested _ _ "arn" _ (by decide))
        (Obj.specStep_setNested _ _ "awsApiKey" _ (by decide)))
        (Obj.specStep_setNested _ _ "awsApiSecret" _ (by decide))
  | _ => simp [hcldec.conforms, targets.AWSSNS.Spec] at hvalid

/-- A string is not null. -/
theorem Value.IsNull_str (s : String) : (Value.str s).IsNull = false := rfl

/-- The manifests of the `datadog` target for a valid config. -/
theorem datadog_manifests_eq (sdk : Sdk) (id : String) (config : Value)
    (glb : sdk.Accessor) (hvalid : hcldec.conforms targets.Datadog.Spec config = true) :
    ∃ primary, Obj.specStep (k8s.NewObject sdk.APITargets "DatadogTarget" (sdk.RFC1123Name id))
        primary ∧
      ∀ dst, targets.Datadog.Manifests sdk id config dst glb =
        some (if dst.IsNull then [primary]
          else [primary, k8s.NewChannel sdk (sdk.RFC1123Name id),
            sdk.NewSubscription (sdk.RFC1123Name id) (sdk.RFC1123Name id)
              (k8s.NewDestination sdk.APITargets "DatadogTarget" (sdk.RFC1123Name id))
              (sdk.AppendDeliverySubscriptionOptions [sdk.ReplyDest dst] glb)]) := by
  cases config with
  | object fields =>
    simp only [targets.Datadog.Spec, hcldec.conforms, hcldec.conformsAttrs,
      Bool.and_eq_true] at hvalid
    obtain ⟨h1, h2, -⟩ := hvalid
    cases hmp : Value.lookupAttr fields "metric_prefix" with
    | none => simp [hmp] at h1
    | some mp =>
    cases hau : Value.lookupAttr fields "auth" with
    | none => simp [hau] at h2
    | some auth =>
    simp only [hmp] at h1
    simp only [hau] at h2
    obtain ⟨ca, ck, cn, rfl⟩ := hcldec.required_objectReference "auth" auth h2
    rcases hcldec.optional_string "metric_prefix" mp h1 with hn | ⟨p, rfl⟩
    · refine ⟨k8s.Object.SetNestedField
        (k8s.NewObject sdk.APITargets "DatadogTarget" (sdk.RFC1123Name id))
        (.map (sdk.SecretKeyRefsDatadog cn)) ["spec", "apiKey", "secretKeyRef"], ?_, ?_⟩
      · exact Obj.specStep_setNested _ _ "apiKey" _ (by decide)
      · intro dst
        cases hd : dst.IsNull <;>
          simp [targets.Datadog.Manifests, Value.GetAttr, hmp, hau, Value.AsString,
            Value.lookupAttr, hd, hn]
    · refine ⟨k8s.Object.SetNestedField (k8s.Object.SetNestedField
        (k8s.NewObject sdk.APITargets "DatadogTarget" (sdk.RFC1123Name id))
        (.str p) ["spec", "metricPrefix"])
        (.map (sdk.SecretKeyRefsDatadog cn)) ["spec", "apiKey", "secretKeyRef"], ?_, ?_⟩
      · exact Obj.specStep_trans _ _ _ (Obj.specStep_setNested _ _ "metricPrefix" _ (by decide))
          (Obj.specStep_setNested _ _ "apiKey" _ (by decide))
      · intro dst
        cases hd : dst.IsNull <;>
          simp [targets.Datadog.Manifests, Value.GetAttr, hmp, hau, Value.AsString,
            Value.lookupAttr, hd, Value.IsNull_str]
  | _ => simp [hcldec.conforms, targets.Datadog.Spec] at hvalid

/-- The manifests of the `kafka` target for a valid config. -/
theorem kafka_target_manifests_eq (sdk : Sdk) (id : String) (config : Value)
    (glb : sdk.Accessor) (hvalid : hcldec.conforms targets.Kafka.Spec config = true) :
    ∃ primary, Obj.specStep
        (k8s.NewObject sdk.APIEventingV1Alpha1 "KafkaSink" (sdk.RFC1123Name id)) primary ∧
      ∀ dst, targets.Kafka.Manifests sdk id config dst glb =
        some (if dst.IsNull then [primary]
          else [primary, k8s.NewChannel sdk (sdk.RFC1123Name id),
            sdk.NewSubscription (sdk.RFC1123Name id) (sdk.RFC1123Name id)
              (k8s.NewDestination sdk.APIEventingV1Alpha1 "KafkaSink" (sdk.RFC1123Name id))
              (sdk.AppendDeliverySubscriptionOptions [sdk.ReplyDest dst] glb)]) := by
  cases config with
  | object fields =>
    simp only [targets.Kafka.Spec, hcldec.conforms, hcldec.conformsAttrs,
      Bool.and_eq_true] at hvalid
    obtain ⟨h1, h2, h3, -⟩ := hvalid
    cases htp : Value.lookupAttr fields "topic" with
    | none => simp [htp] at h1
    | some topic =>
    cases hbs : Value.lookupAttr fields "bootstrap_servers" with
    | none => simp [hbs] at h2
    | some bs =>
    cases hau : Value.lookupAttr fields "auth" with
    | none => simp [hau] at h3
    | some auth =>
    simp only [htp] at h1
    simp only [hau] at h3
    obtain ⟨tp, rfl⟩ := hcldec.required_string "topic" topic h1
    obtain ⟨ca, ck, cn, rfl⟩ := hcldec.required_objectReference "auth" auth h3
    refine ⟨k8s.Object.SetNestedField (k8s.Object.SetNestedField (k8s.Object.SetNestedField
      (k8s.NewObject sdk.APIEventingV1Alpha1 "KafkaSink" (sdk.RFC1123Name id))
      (.str tp) ["spec", "topic"])
      (.slice (sdk.DecodeStringSlice bs)) ["spec", "bootstrapServers"])
      (.str cn) ["spec", "auth", "secret", "ref", "name"], ?_, ?_⟩
    · exact Obj.specStep_trans _ _ _ (Obj.specStep_trans _ _ _
        (Obj.specStep_setNested _ _ "topic" _ (by decide))
        (Obj.specStep_setNested _ _ "bootstrapServers" _ (by decide)))
        (Obj.specStep_setNested _ _ "auth" _ (by decide))
    · intro dst
      cases hd : dst.IsNull <;>
        simp [targets.Kafka.Manifests, Value.GetAttr, htp, hbs, hau, Value.AsString,
          Value.lookupAttr, hd]
  | _ => simp [hcldec.conforms, targets.Kafka.Spec] at hvalid

/-- C6: for each of the three targets, every identifier, valid config and
globals accessor, there is one primary object, with the API version and the
kind of the target and the name `RFC1123Name(id)`, such that the manifests are
exactly that object when the destination is null, and exactly that same
object, the channel and the subscription, in this order, when the destination
is not null. -/
theorem target_manifests_one_or_three (sdk : Sdk) (tg : targets.Target) (id : String)
    (config : Value) (glb : sdk.Accessor)
    (hvalid : hcldec.conforms tg.Spec config = true) :
    ∃ primary,
      unstructured.GetAPIVersion primary = tg.APIVersion sdk ∧
      unstructured.GetKind primary = tg.Kind ∧
      unstructured.GetName primary = sdk.RFC1123Name id ∧
      (∀ dst, dst.IsNull = true → tg.Manifests sdk id config dst glb = some [primary]) ∧
      (∀ dst, dst.IsNull = false →
        tg.Manifests sdk id config dst glb =
          some [primary, k8s.NewChannel sdk (sdk.RFC1123Name id),
            sdk.NewSubscription (sdk.RFC1123Name id) (sdk.RFC1123Name id)
              (k8s.NewDestination (tg.APIVersion sdk) tg.Kind (sdk.RFC1123Name id))
              (sdk.AppendDeliverySubscriptionOptions [sdk.ReplyDest dst] glb)]) ∧
      unstructured.GetAPIVersion (k8s.NewChannel sdk (sdk.RFC1123Name id)) = sdk.APIMessaging ∧
      unstructured.GetKind (k8s.NewChannel sdk (sdk.RFC1123Name id)) = "Channel" ∧
      unstructured.GetName (k8s.NewChannel sdk (sdk.RFC1123Name id)) = sdk.RFC1123Name id := by
  obtain ⟨hca, hck, hcn, -⟩ :=
    unstructured.new_object sdk.APIMessaging "Channel" (sdk.RFC1123Name id)
  have key : ∀ primary, Obj.specStep (k8s.NewObject (tg.APIVersion sdk) tg.Kind
        (sdk.RFC1123Name id)) primary →
      unstructured.GetAPIVersion primary = tg.APIVersion sdk ∧
      unstructured.GetKind primary = tg.Kind ∧
      unstructured.GetName primary = sdk.RFC1123Name id := by
    intro primary hstep
    obtain ⟨ha, hk, hn, -⟩ :=
      unstructured.new_object (tg.APIVersion sdk) tg.Kind (sdk.RFC1123Name id)
    obtain ⟨gn, gk, ga⟩ := Obj.specStep_getters _ _ hstep
    exact ⟨ga.trans ha, gk.trans hk, gn.trans hn⟩
  cases tg with
  | AWSSNS =>
    obtain ⟨primary, hstep, hm⟩ := aws_sns_manifests_eq sdk id config glb hvalid
    obtain ⟨ga, gk, gn⟩ := key primary hstep
    exact ⟨primary, ga, gk, gn, fun dst hd => by simp [targets.Target.Manifests, hm dst, hd],
      fun dst hd => by
        simp [targets.Target.Manifests, hm dst, hd, targets.Target.APIVersion,
          targets.Target.Kind], hca, hck, hcn⟩
  | Datadog =>
    obtain ⟨primary, hstep, hm⟩ := datadog_manifests_eq sdk id config glb hvalid
    obtain ⟨ga, gk, gn⟩ := key primary hstep
    exact ⟨primary, ga, gk, gn, fun dst hd => by simp [targets.Target.Manifests, hm dst, hd],
      fun dst hd => by
        simp [targets.Target.Manifests, hm dst, hd, targets.Target.APIVersion,
          targets.Target.Kind], hca, hck, hcn⟩
  | Kafka =>
    obtain ⟨primary, hstep, hm⟩ := kafka_target_manifests_eq sdk id config glb hvalid
    obtain ⟨ga, gk, gn⟩ := key primary hstep
    exact ⟨primary, ga, gk, gn, fun dst hd => by simp [targets.Target.Manifests, hm dst, hd],
      fun dst hd => by
        simp [targets.Target.Manifests, hm dst, hd, targets.Target.APIVersion,
          targets.Target.Kind], hca, hck, hcn⟩

/-- C6, at an input: the `aws_sns` target `SNS_1`, alone and before a
destination. -/
theorem target_manifests_one_or_three_witness :
    hcldec.conforms targets.Target.AWSSNS.Spec example_inputs.awsSNS = true ∧
    ∃ primary,
      unstructured.GetAPIVersion primary = targets.Target.AWSSNS.APIVersion reference.sdk ∧
      unstructured.GetKind primary = targets.Target.AWSSNS.Kind ∧
      unstructured.GetName primary = reference.sdk.RFC1123Name "SNS_1" ∧
      (∀ dst, dst.IsNull = true →
        targets.Target.AWSSNS.Manifests reference.sdk "SNS_1" example_inputs.awsSNS dst () =
          some [primary]) ∧
      (∀ dst, dst.IsNull = false →
        targets.Target.AWSSNS.Manifests reference.sdk "SNS_1" example_inputs.awsSNS dst () =
          some [primary, k8s.NewChannel reference.sdk (reference.sdk.RFC1123Name "SNS_1"),
            reference.sdk.NewSubscription (reference.sdk.RFC1123Name "SNS_1")
              (reference.sdk.RFC1123Name "SNS_1")
              (k8s.NewDestination (targets.Target.AWSSNS.APIVersion reference.sdk)
                targets.Target.AWSSNS.Kind (reference.sdk.RFC1123Name "SNS_1"))
              (reference.sdk.AppendDeliverySubscriptionOptions [reference.sdk.ReplyDest dst]
                ())]) ∧
      unstructured.GetAPIVersion (k8s.NewChannel reference.sdk (reference.sdk.RFC1123Name "SNS_1"))
        = reference.sdk.APIMessaging ∧
      unstructured.GetKind (k8s.NewChannel reference.sdk (reference.sdk.RFC1123Name "SNS_1"))
        = "Channel" ∧
      unstructured.GetName (k8s.NewChannel reference.sdk (reference.sdk.RFC1123Name "SNS_1"))
        = reference.sdk.RFC1123Name "SNS_1" :=
  ⟨by decide, target_manifests_one_or_three reference.sdk .AWSSNS "SNS_1" example_inputs.awsSNS ()
    (by decide)⟩

/-! ### The validator of `tls` -/

/-- C7: for every value, the validator of the `tls` attribute of the `kafka`
source returns no diagnostics if the value is an object reference or has the
type bool, and otherwise exactly one diagnostic, of severity error, with the
summary "Invalid attributes type"; this is what it returns for `tls = 42`. -/
theorem validate_tls_diagnostics (v : Value) :
    (if k8s.IsObjectReference v || v.typeOf.Equals Ty.bool
      then sources.validateKafkaAttrTLS v = []
      else ∃ d, sources.validateKafkaAttrTLS v = [d] ∧
        d.Severity = hcl.DiagnosticSeverity.DiagError ∧
        d.Summary = "Invalid attributes type") ∧
    (v.typeOf.Equals Ty.bool = true ↔ v.typeOf = Ty.bool) ∧
    (∃ d, sources.validateKafkaAttrTLS (.number 42) = [d] ∧
      d.Severity = hcl.DiagnosticSeverity.DiagError ∧
      d.Summary = "Invalid attributes type") := by
  refine ⟨?_, ?_, ⟨_, rfl, rfl, rfl⟩⟩
  · cases hc : (k8s.IsObjectReference v || v.typeOf.Equals Ty.bool)
    · simp [sources.validateKafkaAttrTLS, hc, hcl.Diagnostics.Append]
    · simp [sources.validateKafkaAttrTLS, hc]
  · cases h : v.typeOf <;> simp [Ty.Equals]

/-! ### The safe decoder -/

/-- C8: for every body, schema and evaluation context, `DecodeSafe` returns
`complete = true` if and only if the first, blind decode produces no error
diagnostic; in that case the value and the diagnostics it returns are those of
the blind decode; otherwise they are those of a second decode, run in the
context in which a placeholder is injected for the block references among the
variables of the body, and `complete` is false. -/
theorem decode_safe_complete_iff (h : HclLib) (b : h.Body) (s : hcldec.Spec)
    (ctx : hcl.EvalContext) :
    ((lang.DecodeSafe h b s ctx).2.1 = true ↔
      hcl.Diagnostics.HasErrors (h.Decode b s ctx).2 = false) ∧
    lang.DecodeSafe h b s ctx =
      (if hcl.Diagnostics.HasErrors (h.Decode b s ctx).2 then
        ((lang.decodeIgnoreUnknownRefs h b s ctx).1, false,
          (lang.decodeIgnoreUnknownRefs h b s ctx).2)
      else ((h.Decode b s ctx).1, true, (h.Decode b s ctx).2)) ∧
    lang.decodeIgnoreUnknownRefs h b s ctx =
      h.Decode b s (lang.evalContextEnsureVars ctx (.unknown k8s.DestinationCty)
        (lang.filterBlockRefs (h.Variables b s))) := by
  refine ⟨?_, ?_, rfl⟩
  · cases hd : hcl.Diagnostics.HasErrors (h.Decode b s ctx).2 <;>
      simp [lang.DecodeSafe, hd]
  · cases hd : hcl.Diagnostics.HasErrors (h.Decode b s ctx).2 <;>
      simp [lang.DecodeSafe, hd, hcl.Diagnostics.Extend]

/-- C9 (as stated, refuted): for the body `sink = target.foo`, decoded in a
context that has no variable `target`, the blind decode produces the error
diagnostic "Unknown variable", the fallback is taken, and `DecodeSafe` returns
no diagnostic at all; so does `TraverseAbsSafe` for the traversal
`target.foo`. The diagnostic of the blind attempt is not among the returned
ones. -/
theorem safe_decoder_drops_blind_diagnostics :
    (hclReference.lib.Decode example_inputs.sinkBody example_inputs.sinkSpec
        example_inputs.channelOnly).2 =
      [hcl.errorAt "Unknown variable" "There is no variable named \"target\"."
        example_inputs.targetFooRange] ∧
    (lang.DecodeSafe hclReference.lib example_inputs.sinkBody example_inputs.sinkSpec
        example_inputs.channelOnly).2 = (false, []) ∧
    ¬ List.Sublist
      (hclReference.lib.Decode example_inputs.sinkBody example_inputs.sinkSpec
        example_inputs.channelOnly).2
      (lang.DecodeSafe hclReference.lib example_inputs.sinkBody example_inputs.sinkSpec
        example_inputs.channelOnly).2.2 ∧
    (hclReference.lib.TraverseAbs example_inputs.targetFoo example_inputs.channelOnly).2 =
      [hcl.errorAt "Unknown variable" "There is no variable named \"target\"."
        example_inputs.targetFooRange] ∧
    (lang.TraverseAbsSafe hclReference.lib example_inputs.targetFoo
        example_inputs.channelOnly).2 = (false, []) ∧
    ¬ List.Sublist
      (hclReference.lib.TraverseAbs example_inputs.targetFoo example_inputs.channelOnly).2
      (lang.TraverseAbsSafe hclReference.lib example_inputs.targetFoo
        example_inputs.channelOnly).2.2 := by
  have h1 : (hclReference.lib.Decode example_inputs.sinkBody example_inputs.sinkSpec
        example_inputs.channelOnly).2 =
      [hcl.errorAt "Unknown variable" "There is no variable named \"target\"."
        example_inputs.targetFooRange] := by decide
  have h2 : (lang.DecodeSafe hclReference.lib example_inputs.sinkBody example_inputs.sinkSpec
        example_inputs.channelOnly).2 = (false, []) := by decide
  have h3 : (hclReference.lib.TraverseAbs example_inputs.targetFoo
        example_inputs.channelOnly).2 =
      [hcl.errorAt "Unknown variable" "There is no variable named \"target\"."
        example_inputs.targetFooRange] := by decide
  have h4 : (lang.TraverseAbsSafe hclReference.lib example_inputs.targetFoo
        example_inputs.channelOnly).2 = (false, []) := by decide
  refine ⟨h1, h2, ?_, h3, h4, ?_⟩
  · rw [h1, h2]; simp
  · rw [h3, h4]; simp

/-- C9 (amended): for every input, the diagnostics that `DecodeSafe`
(respectively `TraverseAbsSafe`) returns are exactly, in the order produced,
those of the last attempt it performed: those of the blind attempt when they
have no error, those of the fallback attempt otherwise. -/
theorem safe_decoder_returns_last_attempt_diagnostics (h : HclLib) (b : h.Body)
    (s : hcldec.Spec) (t : hcl.Traversal) (ctx : hcl.EvalContext) :
    (lang.DecodeSafe h b s ctx).2.2 =
      (if hcl.Diagnostics.HasErrors (h.Decode b s ctx).2 then
        (h.Decode b s (lang.evalContextEnsureVars ctx (.unknown k8s.DestinationCty)
          (lang.filterBlockRefs (h.Variables b s)))).2
      else (h.Decode b s ctx).2) ∧
    (lang.TraverseAbsSafe h t ctx).2.2 =
      (if hcl.Diagnostics.HasErrors (h.TraverseAbs t ctx).2 then
        (h.TraverseAbs t (lang.evalContextEnsureVars ctx (.unknown k8s.DestinationCty)
          (lang.filterBlockRefs [t]))).2
      else (h.TraverseAbs t ctx).2) := by
  constructor
  · cases hd : hcl.Diagnostics.HasErrors (h.Decode b s ctx).2 <;>
      simp [lang.DecodeSafe, hd, hcl.Diagnostics.Extend, lang.decodeIgnoreUnknownRefs]
  · cases hd : hcl.Diagnostics.HasErrors (h.TraverseAbs t ctx).2 <;>
      simp [lang.TraverseAbsSafe, hd, hcl.Diagnostics.Extend]

/-! ### The commands -/

/-- C10: for the generate and graph commands and every argument list from
which one file path is taken and whose flags are parsed: if loading the
Bridge, building the context, generating the manifests or building the graph
returns diagnostics that contain an error, `Run` returns those diagnostics as
its error and makes no write to stdout; for graph, a failure of the DOT
marshalling is returned as an error, with no write to stdout either. -/
theorem run_error_writes_nothing (env : commands.Env) (args : List String) (filePath : String)
    (hpos : (commands.splitArgs 1 args).1 = [filePath]) :
    (∀ flag, env.Parse ["bridge", "yaml"] (commands.splitArgs 1 args).2 = some flag →
      ((env.LoadBridge filePath).2.HasErrors = true →
        commands.GenerateCommand.Run env args =
          some ⟨some (.diagnostics (env.LoadBridge filePath).2), []⟩) ∧
      ((env.LoadBridge filePath).2.HasErrors = false →
        (env.NewContext (env.LoadBridge filePath).1).2.HasErrors = true →
        commands.GenerateCommand.Run env args =
          some ⟨some (.diagnostics (env.NewContext (env.LoadBridge filePath).1).2), []⟩) ∧
      ((env.LoadBridge filePath).2.HasErrors = false →
        (env.NewContext (env.LoadBridge filePath).1).2.HasErrors = false →
        (env.Generate (env.NewContext (env.LoadBridge filePath).1).1).2.HasErrors = true →
        commands.GenerateCommand.Run env args =
          some ⟨some (.diagnostics
            (env.Generate (env.NewContext (env.LoadBridge filePath).1).1).2), []⟩)) ∧
    (∀ flag, env.Parse [] (commands.splitArgs 1 args).2 = some flag →
      ((env.LoadBridge filePath).2.HasErrors = true →
        commands.GraphCommand.Run env args =
          some ⟨some (.diagnostics (env.LoadBridge filePath).2), []⟩) ∧
      ((env.LoadBridge filePath).2.HasErrors = false →
        (env.NewContext (env.LoadBridge filePath).1).2.HasErrors = true →
        commands.GraphCommand.Run env args =
          some ⟨some (.diagnostics (env.NewContext (env.LoadBridge filePath).1).2), []⟩) ∧
      ((env.LoadBridge filePath).2.HasErrors = false →
        (env.NewContext (env.LoadBridge filePath).1).2.HasErrors = false →
        (env.Graph_ (env.NewContext (env.LoadBridge filePath).1).1).2.HasErrors = true →
        commands.GraphCommand.Run env args =
          some ⟨some (.diagnostics
            (env.Graph_ (env.NewContext (env.LoadBridge filePath).1).1).2), []⟩) ∧
      (∀ err, (env.LoadBridge filePath).2.HasErrors = false →
        (env.NewContext (env.LoadBridge filePath).1).2.HasErrors = false →
        (env.Graph_ (env.NewContext (env.LoadBridge filePath).1).1).2.HasErrors = false →
        env.Marshal (env.Graph_ (env.NewContext (env.LoadBridge filePath).1).1).1 =
          .error err →
        commands.GraphCommand.Run env args =
          some ⟨some (.wrapped "marshaling graph to DOT" err), []⟩)) := by
  constructor
  · intro flag hflag
    refine ⟨?_, ?_, ?_⟩
    · intro h1
      simp [commands.GenerateCommand.Run, hpos, hflag, h1]
    · intro h1 h2
      simp [commands.GenerateCommand.Run, hpos, hflag, h1, h2]
    · intro h1 h2 h3
      simp [commands.GenerateCommand.Run, hpos, hflag, h1, h2, h3]
  · intro flag hflag
    refine ⟨?_, ?_, ?_, ?_⟩
    · intro h1
      simp [commands.GraphCommand.Run, hpos, hflag, h1]
    · intro h1 h2
      simp [commands.GraphCommand.Run, hpos, hflag, h1, h2]
    · intro h1 h2 h3
      simp [commands.GraphCommand.Run, hpos, hflag, h1, h2, h3]
    · intro err h1 h2 h3 h4
      simp [commands.GraphCommand.Run, hpos, hflag, h1, h2, h3, h4]

/-- C10, at an input: `generate missing.hcl --yaml` and `graph missing.hcl`,
for a file that cannot be read. -/
theorem run_error_writes_nothing_witness :
    (commands.splitArgs 1 ["missing.hcl", "--yaml"]).1 = ["missing.hcl"] ∧
    commands.GenerateCommand.Run example_inputs.env ["missing.hcl", "--yaml"] =
      some ⟨some (.diagnostics [example_inputs.cannotRead]), []⟩ :=
  ⟨by decide,
    ((run_error_writes_nothing example_inputs.env ["missing.hcl", "--yaml"] "missing.hcl"
      (by decide)).1 (fun name => ["--yaml"].contains ("--" ++ name)) (by rfl)).1 (by decide)⟩

/-! ### The arguments of the commands -/

/-- What `splitArgs` takes as the one positional argument: nothing from an
empty list and from a list that begins with a flag, the first argument
otherwise. -/
theorem commands.splitArgs_one (args : List String) :
    commands.splitArgs 1 args =
      (match args with
        | [] => ([], [])
        | first :: rest =>
          if first != "" && first.front == '-' then ([], first :: rest) else ([first], rest)) := by
  cases args with
  | nil => rfl
  | cons first rest =>
    by_cases h : (first != "" && first.front == '-') = true
    · simp [commands.splitArgs, h]
    · cases rest with
      | nil => simp [commands.splitArgs, h]
      | cons second more => simp [commands.splitArgs, h]

/-- The positional arguments that `splitArgs` takes are none or one. -/
theorem commands.splitArgs_one_cases (args : List String) :
    (commands.splitArgs 1 args).1 = [] ∨ ∃ filePath, (commands.splitArgs 1 args).1 = [filePath] := by
  rw [commands.splitArgs_one]
  cases args with
  | nil => exact Or.inl rfl
  | cons first rest =>
    by_cases h : (first != "" && first.front == '-') = true
    · simp [h]
    · simp [h]

/-- The error for a wrong number of positional arguments is not what
`generate` returns once it has a file path. -/
theorem commands.generate_proceeds (env : commands.Env) (args : List String) (filePath : String)
    (usage : String) (hpos : (commands.splitArgs 1 args).1 = [filePath]) :
    commands.GenerateCommand.Run env args ≠ some ⟨some (.message usage), []⟩ := by
  unfold commands.GenerateCommand.Run
  simp only [hpos]
  cases env.Parse ["bridge", "yaml"] (commands.splitArgs 1 args).2 with
  | none => simp
  | some flag =>
    simp only
    split_ifs <;> simp

/-- The error for a wrong number of positional arguments is not what
`validate` returns once it has a file path. -/
theorem commands.validate_proceeds (env : commands.Env) (args : List String) (filePath : String)
    (usage : String) (hpos : (commands.splitArgs 1 args).1 = [filePath]) :
    commands.ValidateCommand.Run env args ≠ some ⟨some (.message usage), []⟩ := by
  unfold commands.ValidateCommand.Run
  simp only [hpos]
  cases env.Parse [] (commands.splitArgs 1 args).2 with
  | none => simp
  | some flag =>
    simp only
    split_ifs <;> simp

/-- The error for a wrong number of positional arguments is not what `graph`
returns once it has a file path. -/
theorem commands.graph_proceeds (env : commands.Env) (args : List String) (filePath : String)
    (usage : String) (hpos : (commands.splitArgs 1 args).1 = [filePath]) :
    commands.GraphCommand.Run env args ≠ some ⟨some (.message usage), []⟩ := by
  unfold commands.GraphCommand.Run
  simp only [hpos]
  cases env.Parse [] (commands.splitArgs 1 args).2 with
  | none => simp
  | some flag =>
    simp only
    split_ifs
    · simp
    · simp
    · simp
    · cases env.Marshal (env.Graph_ (env.NewContext (env.LoadBridge filePath).1).1).1 with
      | error err => simp
      | ok dg => cases h : env.StdoutWrite dg <;> simp [h]

/-- C11 (as stated, refuted): with the file `bridge.hcl` that loads and
generates without diagnostics, `generate bridge.hcl other.hcl`, which has two
positional arguments, loads `bridge.hcl` and writes its output instead of
returning the error, and `generate --yaml bridge.hcl`, which has exactly one
positional argument, returns the error. -/
theorem run_counts_positionals_wrongly :
    commands.GenerateCommand.Run example_inputs.env ["bridge.hcl", "other.hcl"] =
      some ⟨none, [[]]⟩ ∧
    commands.GenerateCommand.Run example_inputs.env ["--yaml", "bridge.hcl"] =
      some ⟨some (.message ("unexpected number of positional arguments.\n\n" ++
        commands.usageGenerate "til")), []⟩ := by
  constructor <;> rfl

/-- C11 (amended): for each of the generate, validate and graph commands and
every argument list whose flags are parsed, `Run` returns the "unexpected
number of positional arguments" error if and only if the argument list is
empty or begins with a flag; otherwise the first argument is the one
positional argument and `Run` proceeds past argument checking, the
rest of the list being what the flag parser is given. When it returns that
error it loads no file: what it returns does not depend on the loader. -/
theorem run_proceeds_iff_first_argument_positional (env : commands.Env) (args : List String) :
    ((commands.splitArgs 1 args).1 = [] ↔
      (args = [] ∨ ∃ first rest, args = first :: rest ∧ first ≠ "" ∧ first.front = '-')) ∧
    (∀ first rest, args = first :: rest → ¬ (first ≠ "" ∧ first.front = '-') →
      commands.splitArgs 1 args = ([first], rest)) ∧
    (∀ flag, env.Parse ["bridge", "yaml"] (commands.splitArgs 1 args).2 = some flag →
      (commands.GenerateCommand.Run env args =
          some ⟨some (.message ("unexpected number of positional arguments.\n\n" ++
            commands.usageGenerate env.Name)), []⟩ ↔
        (commands.splitArgs 1 args).1 = [])) ∧
    (∀ flag, env.Parse [] (commands.splitArgs 1 args).2 = some flag →
      (commands.ValidateCommand.Run env args =
          some ⟨some (.message ("unexpected number of positional arguments.\n\n" ++
            commands.usageValidate env.Name)), []⟩ ↔
        (commands.splitArgs 1 args).1 = []) ∧
      (commands.GraphCommand.Run env args =
          some ⟨some (.message ("unexpected number of positional arguments.\n\n" ++
            commands.usageGraph env.Name)), []⟩ ↔
        (commands.splitArgs 1 args).1 = [])) ∧
    ((commands.splitArgs 1 args).1 = [] → ∀ load : String → env.Bridge × hcl.Diagnostics,
      commands.GenerateCommand.Run { env with LoadBridge := load } args =
        commands.GenerateCommand.Run env args ∧
      commands.ValidateCommand.Run { env with LoadBridge := load } args =
        commands.ValidateCommand.Run env args ∧
      commands.GraphCommand.Run { env with LoadBridge := load } args =
        commands.GraphCommand.Run env args) := by
  refine ⟨?_, ?_, ?_, ?_, ?_⟩
  · rw [commands.splitArgs_one]
    cases args with
    | nil => simp
    | cons first rest =>
      by_cases h : (first != "" && first.front == '-') = true
      · simp only [h, if_true, true_iff]
        simp only [Bool.and_eq_true, bne_iff_ne, ne_eq, beq_iff_eq] at h
        exact Or.inr ⟨first, rest, rfl, h.1, h.2⟩
      · simp only [h]
        simp only [Bool.and_eq_true, bne_iff_ne, ne_eq, beq_iff_eq] at h
        simp [h]
  · intro first rest hargs hnot
    subst hargs
    rw [commands.splitArgs_one]
    have h : ¬ ((first != "" && first.front == '-') = true) := by
      simpa [Bool.and_eq_true, bne_iff_ne, ne_eq, beq_iff_eq] using hnot
    simp [h]
  · intro flag hflag
    constructor
    · intro hrun
      rcases commands.splitArgs_one_cases args with h | ⟨filePath, h⟩
      · exact h
      · exact absurd hrun (commands.generate_proceeds env args filePath _ h)
    · intro h
      simp [commands.GenerateCommand.Run, h, hflag]
  · intro flag hflag
    refine ⟨⟨?_, ?_⟩, ⟨?_, ?_⟩⟩
    · intro hrun
      rcases commands.splitArgs_one_cases args with h | ⟨filePath, h⟩
      · exact h
      · exact absurd hrun (commands.validate_proceeds env args filePath _ h)
    · intro h
      simp [commands.ValidateCommand.Run, h, hflag]
    · intro hrun
      rcases commands.splitArgs_one_cases args with h | ⟨filePath, h⟩
      · exact h
      · exact absurd hrun (commands.graph_proceeds env args filePath _ h)
    · intro h
      simp [commands.GraphCommand.Run, h, hflag]
  · intro h load
    refine ⟨?_, ?_, ?_⟩
    · simp [commands.GenerateCommand.Run, h]
    · simp [commands.ValidateCommand.Run, h]
    · simp [commands.GraphCommand.Run, h]

/-! ### The output of `generate` and the result of `validate` -/

/-- An error-free run of `generate`: the result is that of the one writer
applied to the manifests. -/
theorem commands.generate_run_ok (env : commands.Env) (args : List String) (filePath : String)
    (flag : String → Bool)
    (hpos : (commands.splitArgs 1 args).1 = [filePath])
    (hflag : env.Parse ["bridge", "yaml"] (commands.splitArgs 1 args).2 = some flag)
    (hload : (env.LoadBridge filePath).2.HasErrors = false)
    (hctx : (env.NewContext (env.LoadBridge filePath).1).2.HasErrors = false)
    (hgen : (env.Generate (env.NewContext (env.LoadBridge filePath).1).1).2.HasErrors = false) :
    commands.GenerateCommand.Run env args =
      some ⟨((if flag "bridge" && flag "yaml" then env.WriteBridgeYAML
            else if flag "bridge" then env.WriteBridgeJSON
            else if flag "yaml" then env.WriteManifestsYAML
            else env.WriteManifestsJSON)
          (if env.Identifier (env.LoadBridge filePath).1 = "" then "til_generated"
            else env.Identifier (env.LoadBridge filePath).1)
          (env.Generate (env.NewContext (env.LoadBridge filePath).1).1).1).2.map
            commands.Error.collaborator,
        ((if flag "bridge" && flag "yaml" then env.WriteBridgeYAML
            else if flag "bridge" then env.WriteBridgeJSON
            else if flag "yaml" then env.WriteManifestsYAML
            else env.WriteManifestsJSON)
          (if env.Identifier (env.LoadBridge filePath).1 = "" then "til_generated"
            else env.Identifier (env.LoadBridge filePath).1)
          (env.Generate (env.NewContext (env.LoadBridge filePath).1).1).1).1⟩ := by
  unfold commands.GenerateCommand.Run
  simp only [hpos, hflag, hload, hctx, hgen]
  cases flag "bridge" <;> cases flag "yaml" <;> simp

/-- C12: for every error-free run of generate, the writer that is applied to
the manifests is decided by the two flags alone: the JSON writer of the
list-manifest for neither flag, the JSON writer of the Bridge for `--bridge`
alone, the YAML writer of the list-manifest for `--yaml` alone and the YAML
writer of the Bridge for both; the calls of `Write` on stdout are those of
that one application of that one writer, and its error is the error of the
command. -/
theorem generate_writer_by_flags (env : commands.Env) (args : List String) (filePath : String)
    (flag : String → Bool)
    (hpos : (commands.splitArgs 1 args).1 = [filePath])
    (hflag : env.Parse ["bridge", "yaml"] (commands.splitArgs 1 args).2 = some flag)
    (hload : (env.LoadBridge filePath).2.HasErrors = false)
    (hctx : (env.NewContext (env.LoadBridge filePath).1).2.HasErrors = false)
    (hgen : (env.Generate (env.NewContext (env.LoadBridge filePath).1).1).2.HasErrors = false) :
    ∃ name, commands.GenerateCommand.Run env args =
      some ⟨((match flag "bridge", flag "yaml" with
            | false, false => env.WriteManifestsJSON
            | true, false => env.WriteBridgeJSON
            | false, true => env.WriteManifestsYAML
            | true, true => env.WriteBridgeYAML) name
          (env.Generate (env.NewContext (env.LoadBridge filePath).1).1).1).2.map
            commands.Error.collaborator,
        ((match flag "bridge", flag "yaml" with
            | false, false => env.WriteManifestsJSON
            | true, false => env.WriteBridgeJSON
            | false, true => env.WriteManifestsYAML
            | true, true => env.WriteBridgeYAML) name
          (env.Generate (env.NewContext (env.LoadBridge filePath).1).1).1).1⟩ := by
  refine ⟨if env.Identifier (env.LoadBridge filePath).1 = "" then "til_generated"
    else env.Identifier (env.LoadBridge filePath).1, ?_⟩
  rw [commands.generate_run_ok env args filePath flag hpos hflag hload hctx hgen]
  cases flag "bridge" <;> cases flag "yaml" <;> rfl

/-- C12, at an input: `generate bridge.hcl --yaml` applies the YAML writer of
the list-manifest. -/
theorem generate_writer_by_flags_witness :
    (commands.splitArgs 1 ["bridge.hcl", "--yaml"]).1 = ["bridge.hcl"] ∧
    ∃ name, commands.GenerateCommand.Run example_inputs.env ["bridge.hcl", "--yaml"] =
      some ⟨(example_inputs.env.WriteManifestsYAML name
          (example_inputs.env.Generate (example_inputs.env.NewContext
            (example_inputs.env.LoadBridge "bridge.hcl").1).1).1).2.map
            commands.Error.collaborator,
        (example_inputs.env.WriteManifestsYAML name
          (example_inputs.env.Generate (example_inputs.env.NewContext
            (example_inputs.env.LoadBridge "bridge.hcl").1).1).1).1⟩ :=
  ⟨by decide, generate_writer_by_flags example_inputs.env ["bridge.hcl", "--yaml"] "bridge.hcl"
    (fun name => ["--yaml"].contains ("--" ++ name)) (by decide) (by rfl) (by decide)
    (by decide) (by decide)⟩

/-- C13: for every Bridge that loads and generates without errors, the name
given to the serializer whose writer generate applies is the identifier of the
Bridge when that identifier is not empty, and `til_generated` when it is. -/
theorem generate_serializer_name (env : commands.Env) (args : List String) (filePath : String)
    (flag : String → Bool)
    (hpos : (commands.splitArgs 1 args).1 = [filePath])
    (hflag : env.Parse ["bridge", "yaml"] (commands.splitArgs 1 args).2 = some flag)
    (hload : (env.LoadBridge filePath).2.HasErrors = false)
    (hctx : (env.NewContext (env.LoadBridge filePath).1).2.HasErrors = false)
    (hgen : (env.Generate (env.NewContext (env.LoadBridge filePath).1).1).2.HasErrors = false) :
    ∃ writer name,
      writer ∈ [env.WriteManifestsJSON, env.WriteBridgeJSON, env.WriteManifestsYAML,
        env.WriteBridgeYAML] ∧
      (env.Identifier (env.LoadBridge filePath).1 ≠ "" →
        name = env.Identifier (env.LoadBridge filePath).1) ∧
      (env.Identifier (env.LoadBridge filePath).1 = "" → name = "til_generated") ∧
      commands.GenerateCommand.Run env args =
        some ⟨(writer name
            (env.Generate (env.NewContext (env.LoadBridge filePath).1).1).1).2.map
              commands.Error.collaborator,
          (writer name (env.Generate (env.NewContext (env.LoadBridge filePath).1).1).1).1⟩ := by
  refine ⟨if flag "bridge" && flag "yaml" then env.WriteBridgeYAML
      else if flag "bridge" then env.WriteBridgeJSON
      else if flag "yaml" then env.WriteManifestsYAML
      else env.WriteManifestsJSON,
    if env.Identifier (env.LoadBridge filePath).1 = "" then "til_generated"
      else env.Identifier (env.LoadBridge filePath).1, ?_, ?_, ?_,
    commands.generate_run_ok env args filePath flag hpos hflag hload hctx hgen⟩
  · cases flag "bridge" <;> cases flag "yaml" <;> simp
  · intro h; simp [h]
  · intro h; simp [h]

/-- C13, at an input: a Bridge without identifier is serialized under the
name `til_generated`. -/
theorem generate_serializer_name_witness :
    (commands.splitArgs 1 ["bridge.hcl", "--bridge"]).1 = ["bridge.hcl"] ∧
    example_inputs.env.Identifier (example_inputs.env.LoadBridge "bridge.hcl").1 = "" ∧
    ∃ writer name,
      writer ∈ [example_inputs.env.WriteManifestsJSON, example_inputs.env.WriteBridgeJSON,
        example_inputs.env.WriteManifestsYAML, example_inputs.env.WriteBridgeYAML] ∧
      (example_inputs.env.Identifier (example_inputs.env.LoadBridge "bridge.hcl").1 ≠ "" →
        name = example_inputs.env.Identifier (example_inputs.env.LoadBridge "bridge.hcl").1) ∧
      (example_inputs.env.Identifier (example_inputs.env.LoadBridge "bridge.hcl").1 = "" →
        name = "til_generated") ∧
      commands.GenerateCommand.Run example_inputs.env ["bridge.hcl", "--bridge"] =
        some ⟨(writer name
            (example_inputs.env.Generate (example_inputs.env.NewContext
              (example_inputs.env.LoadBridge "bridge.hcl").1).1).1).2.map
              commands.Error.collaborator,
          (writer name (example_inputs.env.Generate (example_inputs.env.NewContext
            (example_inputs.env.LoadBridge "bridge.hcl").1).1).1).1⟩ :=
  ⟨by decide, rfl, generate_serializer_name example_inputs.env ["bridge.hcl", "--bridge"]
    "bridge.hcl" (fun name => ["--bridge"].contains ("--" ++ name)) (by decide) (by rfl)
    (by decide) (by decide) (by decide)⟩

/-- C14: for every two argument lists with the same one file path, whose
flags are parsed, `validate` returns nil if and only if the three phases
(load, context, generate) have no error diagnostics, in which case `generate`
reaches serialization; when a phase has an error, `validate` returns what
`generate` returns, the diagnostics of that phase; and `validate` makes no
write to stdout. -/
theorem validate_runs_generate_pipeline (env : commands.Env) (argsV argsG : List String)
    (filePath : String) (flagV flagG : String → Bool)
    (hposV : (commands.splitArgs 1 argsV).1 = [filePath])
    (hposG : (commands.splitArgs 1 argsG).1 = [filePath])
    (hflagV : env.Parse [] (commands.splitArgs 1 argsV).2 = some flagV)
    (hflagG : env.Parse ["bridge", "yaml"] (commands.splitArgs 1 argsG).2 = some flagG) :
    (commands.ValidateCommand.Run env argsV = some ⟨none, []⟩ ↔
      ((env.LoadBridge filePath).2.HasErrors = false ∧
        (env.NewContext (env.LoadBridge filePath).1).2.HasErrors = false ∧
        (env.Generate (env.NewContext (env.LoadBridge filePath).1).1).2.HasErrors = false)) ∧
    (((env.LoadBridge filePath).2.HasErrors = false ∧
        (env.NewContext (env.LoadBridge filePath).1).2.HasErrors = false ∧
        (env.Generate (env.NewContext (env.LoadBridge filePath).1).1).2.HasErrors = false) →
      ∃ writer name,
        writer ∈ [env.WriteManifestsJSON, env.WriteBridgeJSON, env.WriteManifestsYAML,
          env.WriteBridgeYAML] ∧
        commands.GenerateCommand.Run env argsG =
          some ⟨(writer name
              (env.Generate (env.NewContext (env.LoadBridge filePath).1).1).1).2.map
                commands.Error.collaborator,
            (writer name (env.Generate (env.NewContext (env.LoadBridge filePath).1).1).1).1⟩) ∧
    (¬ ((env.LoadBridge filePath).2.HasErrors = false ∧
        (env.NewContext (env.LoadBridge filePath).1).2.HasErrors = false ∧
        (env.Generate (env.NewContext (env.LoadBridge filePath).1).1).2.HasErrors = false) →
      commands.ValidateCommand.Run env argsV = commands.GenerateCommand.Run env argsG ∧
      ∃ diags, hcl.Diagnostics.HasErrors diags = true ∧
        commands.ValidateCommand.Run env argsV = some ⟨some (.diagnostics diags), []⟩) ∧
    (∃ r, commands.ValidateCommand.Run env argsV = some r ∧ r.stdout = []) := by
  cases hload : (env.LoadBridge filePath).2.HasErrors
  · cases hctx : (env.NewContext (env.LoadBridge filePath).1).2.HasErrors
    · cases hgen : (env.Generate (env.NewContext (env.LoadBridge filePath).1).1).2.HasErrors
      · refine ⟨?_, ?_, ?_, ?_⟩
        · simp [commands.ValidateCommand.Run, hposV, hflagV, hload, hctx, hgen]
        · intro _
          refine ⟨_, _, ?_,
            commands.generate_run_ok env argsG filePath flagG hposG hflagG hload hctx hgen⟩
          cases flagG "bridge" <;> cases flagG "yaml" <;> simp
        · intro h; simp at h
        · exact ⟨⟨none, []⟩,
            by simp [commands.ValidateCommand.Run, hposV, hflagV, hload, hctx, hgen], rfl⟩
      · refine ⟨?_, ?_, ?_, ?_⟩
        · simp [commands.ValidateCommand.Run, hposV, hflagV, hload, hctx, hgen]
        · intro h; simp at h
        · intro _
          refine ⟨?_, _, hgen, ?_⟩
          · simp [commands.ValidateCommand.Run, commands.GenerateCommand.Run, hposV, hposG,
              hflagV, hflagG, hload, hctx, hgen]
          · simp [commands.ValidateCommand.Run, hposV, hflagV, hload, hctx, hgen]
        · exact ⟨⟨some (.diagnostics
              (env.Generate (env.NewContext (env.LoadBridge filePath).1).1).2), []⟩,
            by simp [commands.ValidateCommand.Run, hposV, hflagV, hload, hctx, hgen], rfl⟩
    · refine ⟨?_, ?_, ?_, ?_⟩
      · simp [commands.ValidateCommand.Run, hposV, hflagV, hload, hctx]
      · intro h; simp at h
      · intro _
        refine ⟨?_, _, hctx, ?_⟩
        · simp [commands.ValidateCommand.Run, commands.GenerateCommand.Run, hposV, hposG,
            hflagV, hflagG, hload, hctx]
        · simp [commands.ValidateCommand.Run, hposV, hflagV, hload, hctx]
      · exact ⟨⟨some (.diagnostics (env.NewContext (env.LoadBridge filePath).1).2), []⟩,
          by simp [commands.ValidateCommand.Run, hposV, hflagV, hload, hctx], rfl⟩
  · refine ⟨?_, ?_, ?_, ?_⟩
    · simp [commands.ValidateCommand.Run, hposV, hflagV, hload]
    · intro h; simp at h
    · intro _
      refine ⟨?_, _, hload, ?_⟩
      · simp [commands.ValidateCommand.Run, commands.GenerateCommand.Run, hposV, hposG,
          hflagV, hflagG, hload]
      · simp [commands.ValidateCommand.Run, hposV, hflagV, hload]
    · exact ⟨⟨some (.diagnostics (env.LoadBridge filePath).2), []⟩,
        by simp [commands.ValidateCommand.Run, hposV, hflagV, hload], rfl⟩

/-- C14, at an input: for a file that cannot be read, `validate missing.hcl`
returns what `generate missing.hcl --yaml` returns, the diagnostics of the
loader, and writes nothing. -/
theorem validate_runs_generate_pipeline_witness :
    (commands.splitArgs 1 ["missing.hcl"]).1 = ["missing.hcl"] ∧
    (commands.splitArgs 1 ["missing.hcl", "--yaml"]).1 = ["missing.hcl"] ∧
    commands.ValidateCommand.Run example_inputs.env ["missing.hcl"] =
      commands.GenerateCommand.Run example_inputs.env ["missing.hcl", "--yaml"] ∧
    commands.ValidateCommand.Run example_inputs.env ["missing.hcl"] =
      some ⟨some (.diagnostics [example_inputs.cannotRead]), []⟩ :=
  ⟨by decide, by decide,
    ((validate_runs_generate_pipeline example_inputs.env ["missing.hcl"]
      ["missing.hcl", "--yaml"] "missing.hcl" (fun name => [].contains ("--" ++ name))
      (fun name => ["--yaml"].contains ("--" ++ name)) (by decide) (by decide) (by rfl)
      (by rfl)).2.2.1 (by decide)).1, by rfl⟩

/-! ### The vertices of the components -/

/-- A loop that adds one vertex for each record adds the vertices of the
records, in order, after the vertices that the graph has, and leaves the
edges. -/
theorem graph.foldl_Add {V R : Type} (f : R → V) (records : List R) (g : graph.DirectedGraph V) :
    records.foldl (fun g r => g.Add (f r)) g =
      { vertices := g.vertices ++ records.map f, edges := g.edges } := by
  induction records generalizing g with
  | nil => simp
  | cons r rest ih =>
    simp only [List.foldl_cons]
    rw [ih]
    simp [graph.DirectedGraph.Add]

/-- C15: for every Bridge and every graph, the vertices of the graph after
`AddComponentsTransformer.Transform` are the vertices it had, followed by one
vertex for each record of the channels, of the routers, of the transformers,
of the sources and of the targets, each vertex owning its record; the edges
are the edges it had and the diagnostics returned are empty. The vertices
added are as many as the records, and the component address of each has the
category of its collection and the identifier of its record. -/
theorem add_components_adds_one_vertex_per_record (bridge : config.Bridge)
    (g : graph.DirectedGraph core.Vertex) :
    (core.AddComponentsTransformer.Transform bridge g).1.vertices =
      g.vertices ++
        (bridge.Channels.map (fun ch => core.Vertex.ChannelVertex ⟨ch.Identifier⟩ ch) ++
          bridge.Routers.map (fun rtr => core.Vertex.RouterVertex ⟨rtr.Identifier⟩ rtr) ++
          bridge.Transformers.map (fun trsf =>
            core.Vertex.TransformerVertex ⟨trsf.Identifier⟩ trsf) ++
          bridge.Sources.map (fun src => core.Vertex.SourceVertex src) ++
          bridge.Targets.map (fun trg => core.Vertex.TargetVertex ⟨trg.Identifier⟩ trg)) ∧
    (core.AddComponentsTransformer.Transform bridge g).1.edges = g.edges ∧
    (core.AddComponentsTransformer.Transform bridge g).2 = [] ∧
    (core.AddComponentsTransformer.Transform bridge g).1.vertices.length =
      g.vertices.length + (bridge.Channels.length + bridge.Routers.length +
        bridge.Transformers.length + bridge.Sources.length + bridge.Targets.length) ∧
    ((core.AddComponentsTransformer.Transform bridge g).1.vertices.drop g.vertices.length).map
        (fun v => (v.ComponentAddr.Category, v.ComponentAddr.Identifier)) =
      bridge.Channels.map (fun ch => (config.ComponentCategory.CategoryChannels, ch.Identifier)) ++
        bridge.Routers.map (fun rtr =>
          (config.ComponentCategory.CategoryRouters, rtr.Identifier)) ++
        bridge.Transformers.map (fun trsf =>
          (config.ComponentCategory.CategoryTransformers, trsf.Identifier)) ++
        bridge.Sources.map (fun src =>
          (config.ComponentCategory.CategorySources, src.Identifier)) ++
        bridge.Targets.map (fun trg =>
          (config.ComponentCategory.CategoryTargets, trg.Identifier)) ∧
    (∀ v ∈ (core.AddComponentsTransformer.Transform bridge g).1.vertices.drop g.vertices.length,
      v.ComponentAddr.Identifier = v.recordIdentifier) := by
  have hv : (core.AddComponentsTransformer.Transform bridge g).1.vertices =
      g.vertices ++
        (bridge.Channels.map (fun ch => core.Vertex.ChannelVertex ⟨ch.Identifier⟩ ch) ++
          bridge.Routers.map (fun rtr => core.Vertex.RouterVertex ⟨rtr.Identifier⟩ rtr) ++
          bridge.Transformers.map (fun trsf =>
            core.Vertex.TransformerVertex ⟨trsf.Identifier⟩ trsf) ++
          bridge.Sources.map (fun src => core.Vertex.SourceVertex src) ++
          bridge.Targets.map (fun trg => core.Vertex.TargetVertex ⟨trg.Identifier⟩ trg)) := by
    simp only [core.AddComponentsTransformer.Transform, graph.foldl_Add, List.append_assoc]
  refine ⟨hv, ?_, rfl, ?_, ?_, ?_⟩
  · simp only [core.AddComponentsTransformer.Transform, graph.foldl_Add]
  · rw [hv]
    simp only [List.length_append, List.length_map]
  · rw [hv, List.drop_left]
    simp only [List.map_append, List.map_map]
    rfl
  · rw [hv, List.drop_left]
    intro v hmem
    simp only [List.mem_append, List.mem_map] at hmem
    rcases hmem with (((⟨r, -, rfl⟩ | ⟨r, -, rfl⟩) | ⟨r, -, rfl⟩) | ⟨r, -, rfl⟩) | ⟨r, -, rfl⟩ <;> rfl

/-- The vertices that `Transform` adds to a graph of one vertex for the
example bridge. -/
theorem core.transform_example :
    (core.AddComponentsTransformer.Transform example_inputs.bridge
        ⟨[.SourceVertex ⟨"kafka", "old"⟩], []⟩).1.vertices =
      [.SourceVertex ⟨"kafka", "old"⟩,
        .ChannelVertex ⟨"ch"⟩ ⟨"pubsub", "ch"⟩,
        .RouterVertex ⟨"rt"⟩ ⟨"content_based", "rt"⟩,
        .TransformerVertex ⟨"fn"⟩ ⟨"function", "fn"⟩,
        .SourceVertex ⟨"kafka", "src"⟩,
        .TargetVertex ⟨"a"⟩ ⟨"aws_sns", "a"⟩,
        .TargetVertex ⟨"b"⟩ ⟨"datadog", "b"⟩] := by
  decide

/-! ### The function `file` -/

/-- C16 (as stated, refuted): the file `/bridges/accent.txt` holds the letter
`e` followed by the combining acute accent U+0301; opening and reading it
succeed, and `file("accent.txt")` returns, with no error, the known string of
the one letter U+00E9, which is not the contents of the file. -/
theorem file_func_returns_normalized_not_raw_contents :
    (example_inputs.fileSystem.Open "/bridges/accent.txt").toOption.map
        example_inputs.fileSystem.ReadAll = some (example_inputs.accentContents, none) ∧
    example_inputs.accentContents.data.map Char.toNat = [0x65, 0x301] ∧
    (funcs.fileFuncImpl "/bridges" example_inputs.fileSystem [.str "accent.txt"]).map
        (fun r => (r.val.AsString.map (fun v => v.data.map Char.toNat), r.err, r.opened)) =
      some (some [0xE9], none, ["/bridges/accent.txt"]) ∧
    (funcs.fileFuncImpl "/bridges" example_inputs.fileSystem [.str "accent.txt"]).map
        (fun r => r.val.AsString) ≠ some (some example_inputs.accentContents) := by
  refine ⟨by rfl, by decide, by decide, by decide⟩

/-- C16 (amended): for every base directory, file system and path, the
implementation of `file` applied to the string `path` returns, and opens one
path: `path` when it is absolute, the join of the base directory with `path`
otherwise. When opening and reading succeed, it returns no error and the
known string `cty.StringVal` of everything that was read, which is the
contents in the normal form NFC, and the contents themselves when they are in
that form already; when opening fails it returns the unknown string and the
error "opening file"; when reading fails it returns the unknown string and
the error "reading file contents", whatever was read before the failure. -/
theorem file_func_returns_normalized_contents_or_fails (basedir : String) (fs : funcs.FS)
    (path : String) (rest : List Value) :
    ∃ r, funcs.fileFuncImpl basedir fs (.str path :: rest) = some r ∧
      r.opened = [if fs.IsAbs path then path else fs.Join basedir path] ∧
      (∀ fd data, fs.Open (if fs.IsAbs path then path else fs.Join basedir path) = .ok fd →
        fs.ReadAll fd = (data, none) →
        r.val = .str (fs.NormalizeString data) ∧ r.err = none ∧
        (fs.NormalizeString data = data → r.val = .str data)) ∧
      (∀ err, fs.Open (if fs.IsAbs path then path else fs.Join basedir path) = .error err →
        r.val = .unknown .string ∧ r.err = some ⟨"opening file", err⟩) ∧
      (∀ fd data err, fs.Open (if fs.IsAbs path then path else fs.Join basedir path) = .ok fd →
        fs.ReadAll fd = (data, some err) →
        r.val = .unknown .string ∧ r.err = some ⟨"reading file contents", err⟩) ∧
      ((r.val = .unknown .string ∧ r.err.isSome = true) ∨
        (r.err = none ∧ ∃ fd data,
          fs.Open (if fs.IsAbs path then path else fs.Join basedir path) = .ok fd ∧
          fs.ReadAll fd = (data, none) ∧ r.val = .str (fs.NormalizeString data))) := by
  have hp : (if (!fs.IsAbs path) = true then fs.Join basedir path else path) =
      (if fs.IsAbs path = true then path else fs.Join basedir path) := by
    cases fs.IsAbs path <;> rfl
  simp only [funcs.fileFuncImpl, List.head?_cons, Value.AsString, Option.bind_eq_bind,
    Option.some_bind, Option.pure_def, hp]
  cases hopen : fs.Open (if fs.IsAbs path = true then path else fs.Join basedir path) with
  | error err =>
    refine ⟨_, rfl, rfl, ?_, ?_, ?_, ?_⟩
    · intro fd data h; cases h
    · intro e h; cases h; exact ⟨rfl, rfl⟩
    · intro fd data e h; cases h
    · exact Or.inl ⟨rfl, rfl⟩
  | ok fd =>
    dsimp only
    cases hread : fs.ReadAll fd with
    | mk data e =>
    cases e with
    | none =>
      refine ⟨_, rfl, rfl, ?_, ?_, ?_, ?_⟩
      · intro fd1 data1 h h1
        cases h
        rw [hread] at h1
        cases h1
        exact ⟨rfl, rfl, fun hnf => by simp [funcs.StringVal, hnf]⟩
      · intro e h; cases h
      · intro fd1 data1 e h h1
        cases h
        rw [hread] at h1
        cases h1
      · exact Or.inr ⟨rfl, fd, data, rfl, hread, rfl⟩
    | some err =>
      refine ⟨_, rfl, rfl, ?_, ?_, ?_, ?_⟩
      · intro fd1 data1 h h1
        cases h
        rw [hread] at h1
        cases h1
      · intro e h; cases h
      · intro fd1 data1 e h h1
        cases h
        rw [hread] at h1
        cases h1
        exact ⟨rfl, rfl⟩
      · exact Or.inl ⟨rfl, rfl⟩

/-- The function `file` on the example file system, with the base directory
`/bridges`: a relative path of a file, the absolute path of that file, a file
that does not exist and a file whose reading fails. -/
theorem funcs.fileFuncImpl_examples :
    (funcs.fileFuncImpl "/bridges" example_inputs.fileSystem [.str "code.js"]).map
        (fun r => (r.val.AsString, r.err, r.opened)) =
      some (some "function handle() \x7b\x7d", none, ["/bridges/code.js"]) ∧
    (funcs.fileFuncImpl "/other" example_inputs.fileSystem [.str "/bridges/code.js"]).map
        (fun r => (r.val.AsString, r.err, r.opened)) =
      some (some "function handle() \x7b\x7d", none, ["/bridges/code.js"]) ∧
    (funcs.fileFuncImpl "/bridges" example_inputs.fileSystem [.str "none.js"]).map
        (fun r => (r.val.IsKnown, r.err, r.opened)) =
      some (false, some ⟨"opening file", "open /bridges/none.js: file does not exist"⟩,
        ["/bridges/none.js"]) ∧
    (funcs.fileFuncImpl "/bridges" example_inputs.fileSystem [.str "broken.js"]).map
        (fun r => (r.val.IsKnown, r.err, r.opened)) =
      some (false, some ⟨"reading file contents", "input/output error"⟩,
        ["/bridges/broken.js"]) := by
  refine ⟨by decide, by decide, by decide, by decide⟩

/-! ### The block references among the variables of a body -/

/-- The loop of `filterBlockRefs` appends to what it has the traversals that
it keeps. -/
theorem lang.filterBlockRefs_foldl (vars blockRefs : List hcl.Traversal) :
    vars.foldl (fun blockRefs t =>
        let cmpCat := config.AsComponentCategory t.RootName
        if !(lang.referenceableTypes.contains cmpCat) then blockRefs
        else blockRefs ++ [t]) blockRefs =
      blockRefs ++ vars.filter (fun t =>
        lang.referenceableTypes.contains (config.AsComponentCategory t.RootName)) := by
  induction vars generalizing blockRefs with
  | nil => simp
  | cons t rest ih =>
    simp only [List.foldl_cons, ih, List.filter_cons]
    cases h : lang.referenceableTypes.contains (config.AsComponentCategory t.RootName) <;> simp

/-- C17: for every list of traversals, `filterBlockRefs` returns the
traversals whose root name is a referenceable component category (which are
the root names `channel`, `router`, `transformer`, `source` and `target`), in
the order of the list: the result is the list filtered by that test, so it is
a sublist of the list, every element of it has a referenceable root, every
element of the list that is not in it has none, and filtering the result again
gives the result. -/
theorem filter_block_refs_is_order_preserving_filter (vars : List hcl.Traversal) :
    lang.filterBlockRefs vars = vars.filter (fun t =>
      lang.referenceableTypes.contains (config.AsComponentCategory t.RootName)) ∧
    List.Sublist (lang.filterBlockRefs vars) vars ∧
    (∀ t ∈ lang.filterBlockRefs vars,
      lang.referenceableTypes.contains (config.AsComponentCategory t.RootName) = true) ∧
    (∀ t ∈ vars, t ∉ lang.filterBlockRefs vars →
      lang.referenceableTypes.contains (config.AsComponentCategory t.RootName) = false) ∧
    lang.filterBlockRefs (lang.filterBlockRefs vars) = lang.filterBlockRefs vars ∧
    (∀ t : hcl.Traversal,
      lang.referenceableTypes.contains (config.AsComponentCategory t.RootName) = true ↔
        t.RootName ∈ ["channel", "router", "transformer", "source", "target"]) := by
  have heq : ∀ vs : List hcl.Traversal, lang.filterBlockRefs vs = vs.filter (fun t =>
      lang.referenceableTypes.contains (config.AsComponentCategory t.RootName)) := by
    intro vs
    unfold lang.filterBlockRefs
    split_ifs with h
    · rw [List.length_eq_zero.mp h]; rfl
    · rw [lang.filterBlockRefs_foldl]; simp
  refine ⟨heq vars, ?_, ?_, ?_, ?_, ?_⟩
  · rw [heq]; exact List.filter_sublist vars
  · intro t ht
    rw [heq] at ht
    exact (List.mem_filter.mp ht).2
  · intro t ht hnot
    rw [heq] at hnot
    cases h : lang.referenceableTypes.contains (config.AsComponentCategory t.RootName)
    · rfl
    · exact absurd (List.mem_filter.mpr ⟨ht, h⟩) hnot
  · rw [heq (lang.filterBlockRefs vars), heq vars, List.filter_filter]
    simp
  · intro t
    generalize t.RootName = s
    unfold config.AsComponentCategory
    by_cases h1 : s = "channel"
    · subst h1; decide
    by_cases h2 : s = "router"
    · subst h2; decide
    by_cases h3 : s = "transformer"
    · subst h3; decide
    by_cases h4 : s = "source"
    · subst h4; decide
    by_cases h5 : s = "target"
    · subst h5; decide
    by_cases h6 : s = "function"
    · subst h6; decide
    simp only [h1, h2, h3, h4, h5, h6, if_false, List.mem_cons, List.mem_singleton, or_self,
      List.not_mem_nil, iff_false]
    decide

/-! ### The validator of the `tls` attribute of the Kafka source -/

/-- C18 (refuted, a fault of the code): `validateKafkaAttrTLS` answers the null
value of dynamic type, which is what the schema of the attribute (`Required:
false`) gives it when `tls` is omitted, with the error "Invalid attributes
type". Decoding a Kafka source block without `tls` against `Kafka.Spec`
therefore returns that error, with the configuration in which `tls` is null,
and `Kafka.Manifests` translates that same configuration, its block for `tls`
being guarded by `!v.IsNull()`. -/
theorem validate_tls_rejects_omitted_attribute :
    sources.validateKafkaAttrTLS (.null .dynamic) =
      [hcl.Diagnostic.mk .DiagError "Invalid attributes type"
        "The \"tls\" attribute accepts either a secret reference or a boolean." none] ∧
    hcl.Diagnostics.HasErrors (sources.validateKafkaAttrTLS (.null .dynamic)) = true ∧
    (hclReference.decode example_inputs.kafkaSourceBody [] (.AttrSpec "tls" .dynamic false)).1
      = .null .dynamic ∧
    hclReference.decode example_inputs.kafkaSourceBody [] sources.Kafka.Spec =
      (example_inputs.kafkaSource,
        [hcl.Diagnostic.mk .DiagError "Invalid attributes type"
          "The \"tls\" attribute accepts either a secret reference or a boolean." none]) ∧
    (sources.Kafka.Manifests reference.sdk "orders" example_inputs.kafkaSource
      example_inputs.someDestination).isSome = true := by
  refine ⟨by rfl, by rfl, by rfl, by rfl, by rfl⟩

/-! ### The object that an address names -/

/-- The manifest of the `bumblebee` transformer `bee` for the example
configuration of its schema. -/
theorem transformers.bumblebee_example :
    (transformers.Bumblebee.Manifests reference.sdk "bee" example_inputs.bumblebee
        example_inputs.someDestination).map
      (fun ms => ms.map (fun m => (unstructured.GetKind m, unstructured.GetName m,
        unstructured.NestedField m ["spec", "sink", "ref", "name"],
        unstructured.NestedField m ["spec", "data"]))) =
    some [("Transformation", "bee", some (.str "next"),
      some (.slice [.map [("operation", .str "store"),
        ("paths", .slice [.map [("key", .str "$payload")]])]]))] := by
  rfl
